import Mathlib

/-!
The native ODBC binding of node-odbc, `Database.cpp`, as a shallow embedding.

The file embeds `src/lib/node-odbc/src/Database.cpp` (open, close and query
paths of the `Database` object) and proves properties of the embedded code.

Conventions of the embedding.

* ODBC return codes, lengths and type codes are `Int`; the constants have the
  values of `sql.h` / `sqlext.h`.
* C strings (column names, the column value buffer) are `List Char`: the bytes
  of the buffer up to its terminating NUL.
* The native driver is a finite script of the answers it gives, in call order.
  A script that runs out is a driver with nothing further to report: a fetch
  returns `SQL_NO_DATA`, `SQLNumResultCols` leaves `colCount` at the `0` it was
  reset to, `SQLMoreResults` returns `SQL_NO_DATA`, and a column read fails
  with `SQL_ERROR`.
* Every function returns, next to its result, what it did: the native calls
  it issued and the messages it emitted, in order.
-/

namespace NodeOdbc

/-! ## Constants of `sql.h` / `sqlext.h` and of `Database.cpp` -/

def SQL_SUCCESS : Int := 0
def SQL_SUCCESS_WITH_INFO : Int := 1
def SQL_NO_DATA : Int := 100
def SQL_ERROR : Int := -1
def SQL_INVALID_HANDLE : Int := -2
def SQL_NULL_DATA : Int := -1

def SQL_NUMERIC : Int := 2
def SQL_DECIMAL : Int := 3
def SQL_INTEGER : Int := 4
def SQL_SMALLINT : Int := 5
def SQL_FLOAT : Int := 6
def SQL_REAL : Int := 7
def SQL_DOUBLE : Int := 8
def SQL_DATETIME : Int := 9
def SQL_TIMESTAMP : Int := 11
def SQL_VARCHAR : Int := 12
def SQL_BIT : Int := -7

def MAX_FIELD_SIZE : Nat := 1024
def MAX_VALUE_SIZE : Nat := 1048576

/-- The macro `SQL_SUCCEEDED(rc)` of `sqltypes.h`: `((rc) & (~1)) == 0`, which
holds exactly for `SQL_SUCCESS` and `SQL_SUCCESS_WITH_INFO`. -/
def SQL_SUCCEEDED (rc : Int) : Bool := rc == SQL_SUCCESS || rc == SQL_SUCCESS_WITH_INFO

set_option linter.unusedVariables false

/-! ## `atof` of the C library

`atof(s)` is `strtod(s, NULL)` (ISO C 7.22.1.2). `strtod` skips white space,
reads an optional sign and then the longest prefix that is a decimal
floating constant, a hexadecimal floating constant, `INF`/`INFINITY` or
`NAN`/`NAN(...)`, ignoring case. If no conversion can be performed it returns
zero (7.22.1.3 paragraph 10). -/

/-- The result of `atof`: a C `double`, kept as the exact number that is
rounded to it. `fin neg m b e` is the double nearest to `(-1)^neg * m * b^e`. -/
inductive CDouble where
  | nan
  | inf (neg : Bool)
  | fin (neg : Bool) (mant : Nat) (base : Nat) (exp : Int)
  deriving DecidableEq, Repr

/-- The `+0.0` that `strtod` returns when no conversion can be performed. -/
def CDouble.zero : CDouble := .fin false 0 10 0

def isspace (c : Char) : Bool :=
  c == ' ' || c == '\t' || c == '\n' || c == '\x0b' || c == '\x0c' || c == '\r'

def isdigit (c : Char) : Bool := '0' ≤ c && c ≤ '9'

def isxdigit (c : Char) : Bool :=
  isdigit c || ('a' ≤ c && c ≤ 'f') || ('A' ≤ c && c ≤ 'F')

def tolower (c : Char) : Char :=
  if 'A' ≤ c && c ≤ 'Z' then Char.ofNat (c.toNat + 32) else c

def digitVal (c : Char) : Nat := c.toNat - '0'.toNat

def xdigitVal (c : Char) : Nat :=
  if isdigit c then c.toNat - '0'.toNat
  else (tolower c).toNat - 'a'.toNat + 10

/-- Reads the digits of base `b` at the head of the text into the
accumulator; returns the accumulator, the number of digits read and the
rest of the text. -/
def readDigits (b : Nat) (isd : Char → Bool) (val : Char → Nat) :
    Nat → Nat → List Char → Nat × Nat × List Char
  | acc, n, [] => (acc, n, [])
  | acc, n, c :: cs =>
    if isd c then readDigits b isd val (acc * b + val c) (n + 1) cs else (acc, n, c :: cs)

/-- Does the text start with the given lower-case word, ignoring case? -/
def startsWithCI : List Char → List Char → Bool
  | [], _ => true
  | _ :: _, [] => false
  | w :: ws, c :: cs => tolower c == w && startsWithCI ws cs

/-- The exponent part `e[sign]digits` (or `p[sign]digits`): its value, `0`
when the part is absent or has no digit. -/
def readExponent (marker : Char) : List Char → Int
  | [] => 0
  | c :: cs =>
    if tolower c == marker then
      let (neg, ds) :=
        match cs with
        | '-' :: r => (true, r)
        | '+' :: r => (false, r)
        | r => (false, r)
      let (v, n, _) := readDigits 10 isdigit digitVal 0 0 ds
      if n = 0 then 0 else if neg then -(v : Int) else (v : Int)
    else 0

/-- A mantissa `digits[.digits]` in base `b`: the digits read as one
integer, the number of digits in all, the number after the point, and the
rest of the text. -/
def readMantissa (b : Nat) (isd : Char → Bool) (val : Char → Nat) (s : List Char) :
    Nat × Nat × Nat × List Char :=
  let (m1, n1, r1) := readDigits b isd val 0 0 s
  match r1 with
  | '.' :: r2 =>
    let (m2, n2, r3) := readDigits b isd val m1 0 r2
    (m2, n1 + n2, n2, r3)
  | _ => (m1, n1, 0, r1)

/-- The subject sequence after white space and sign; `none` when no
conversion can be performed. -/
def strtodUnsigned (neg : Bool) (s : List Char) : Option CDouble :=
  if startsWithCI "inf".toList s then some (.inf neg)
  else if startsWithCI "nan".toList s then some .nan
  else
    let hex : Option CDouble :=
      match s with
      | '0' :: x :: r =>
        if tolower x == 'x' then
          let (m, n, f, rest) := readMantissa 16 isxdigit xdigitVal r
          if n = 0 then none
          else some (.fin neg m 2 (readExponent 'p' rest - 4 * (f : Int)))
        else none
      | _ => none
    match hex with
    | some d => some d
    | none =>
      let (m, n, f, rest) := readMantissa 10 isdigit digitVal s
      if n = 0 then none
      else some (.fin neg m 10 (readExponent 'e' rest - (f : Int)))

def strtod (s : List Char) : Option CDouble :=
  match s.dropWhile isspace with
  | '-' :: r => strtodUnsigned true r
  | '+' :: r => strtodUnsigned false r
  | r => strtodUnsigned false r

/-- The C library's `atof`: the converted value, zero when no conversion can
be performed. -/
def atof (s : List Char) : CDouble := (strtod s).getD CDouble.zero

/-- A text has a parseable numeric prefix when, after white space and an
optional sign, it starts with a digit, with a point followed by a digit, or
with `inf` or `nan` in any case. -/
def startsNumeric (s : List Char) : Bool :=
  let t := match s.dropWhile isspace with
    | '-' :: r => r
    | '+' :: r => r
    | r => r
  match t with
  | [] => false
  | c :: r =>
    isdigit c || (c == '.' && (match r with | d :: _ => isdigit d | [] => false))
      || startsWithCI "inf".toList t || startsWithCI "nan".toList t

/-! ## Values, rows and messages -/

/-- The shared `struct tm timeInfo` of `EIO_AfterQuery`. It starts zeroed and
is only touched by the pair `strptime(buf, "%Y-%m-%d %H:%M:%S", &timeInfo)`,
`mktime(&timeInfo)` of the date cases, so its content is a function of the
texts those calls were given so far, oldest first. -/
abbrev TimeInfo := List (List Char)

/-- The JavaScript value set on the row for one column. `Date timeInfo` is
`Date::New(mktime(&timeInfo) * 1000)` for the state of `timeInfo` reached
after the listed texts. -/
inductive Value where
  | Null
  | Number (d : CDouble)
  | Boolean (b : Bool)
  | Date (timeInfo : TimeInfo)
  | String (s : List Char)
  deriving DecidableEq, Repr

/-- The `Column` struct of the source. -/
structure Column where
  name : List Char
  len : Int
  type : Int
  deriving DecidableEq, Repr

/-- The row object `tuple`: the properties set on it, in the order in which
they were first set. -/
abbrev Tuple := List (List Char × Value)

/-- The call `tuple->Set(name, v)`: a property that exists is overwritten in
place, a new one is added last. -/
def Tuple.Set : Tuple → List Char → Value → Tuple
  | [], name, v => [(name, v)]
  | (k, w) :: t, name, v => if k = name then (k, v) :: t else (k, w) :: Tuple.Set t name v

/-- The property read `tuple[name]`. -/
def Tuple.Get : Tuple → List Char → Option Value
  | [], _ => none
  | (k, w) :: t, name => if k = name then some w else Tuple.Get t name

/-- The three arguments of one `'result'` event: `args[0]` (the error, which
the source always sets to `Null()`), `args[1]` (the rows) and `args[2]`. -/
structure Message where
  error : Option (List Char)
  rows : List Tuple
  hasMore : Bool
  deriving DecidableEq, Repr

/-! ## The driver script -/

/-- The answer of one `SQLGetData` call: its return code, the length it
stores in `len` and the C string it leaves in `buf`. -/
structure GetData where
  ret : Int
  len : Int
  buf : List Char
  deriving DecidableEq, Repr

/-- The answer of one `SQLFetch` call and of the column reads that follow it,
column 1 first. -/
structure Fetch where
  ret : Int
  data : List GetData
  deriving DecidableEq, Repr

/-- The answers of the two `SQLColAttribute` calls for one column: the label
left in the name buffer, the length stored in `buflen`, and the type. -/
structure ColAttr where
  name : List Char
  buflen : Int
  type : Int
  deriving DecidableEq, Repr

/-- One result set of the statement: its columns (`SQLNumResultCols` stores
their number in `colCount`; a statement without a result set has none, and
`colCount` stays `0`), the answers to the fetches, and the return code of the
`SQLMoreResults` call that ends it. -/
structure ResultSet where
  columns : List ColAttr
  fetches : List Fetch
  moreResults : Int
  deriving DecidableEq, Repr

/-- The column read of a driver that has nothing to give. -/
def noData : GetData := ⟨SQL_ERROR, 0, []⟩

/-- The result set of a driver whose script has run out. -/
def noResultSet : ResultSet := ⟨[], [], SQL_NO_DATA⟩

/-- What the code does, in order: the native calls and the emits. -/
inductive Event where
  | SQLAllocEnv | SQLAllocConnect | SQLSetConnectOption | SQLDriverConnect
  | SQLAllocStmt | SQLGetFunctions | SQLGetDiagRec
  | SQLDisconnect | SQLFreeHandleEnv | SQLFreeHandleDbc
  | SQLExecDirect | SQLError
  | SQLNumResultCols
  | SQLColAttribute (col : Nat)
  | SQLFetch (ret : Int)
  | SQLGetData (col : Nat)
  | SQLMoreResults (ret : Int)
  | SQLFreeStmt
  | SQLAllocHandleStmt
  | Emit (m : Message)
  deriving DecidableEq, Repr

/-! ## `EIO_AfterQuery` -/

/-- The byte `*buf`: the first byte of the buffer, the terminating NUL when
the text is empty. -/
def firstByte (buf : List Char) : Char := buf.headD (Char.ofNat 0)

/-- The type codes of the seven `atof` cases of the switch. -/
def numericFamily : List Int :=
  [SQL_NUMERIC, SQL_DECIMAL, SQL_INTEGER, SQL_SMALLINT, SQL_FLOAT, SQL_REAL, SQL_DOUBLE]

/-- Lines 316-362: the value set on the row for one column read, and the
shared `timeInfo` after it. -/
def columnValue (type : Int) (gd : GetData) (timeInfo : TimeInfo) : Value × TimeInfo :=
  if gd.ret = SQL_NULL_DATA ∨ gd.len < 0 then (Value.Null, timeInfo)
  else if type = SQL_NUMERIC then (Value.Number (atof gd.buf), timeInfo)
  else if type = SQL_DECIMAL then (Value.Number (atof gd.buf), timeInfo)
  else if type = SQL_INTEGER then (Value.Number (atof gd.buf), timeInfo)
  else if type = SQL_SMALLINT then (Value.Number (atof gd.buf), timeInfo)
  else if type = SQL_FLOAT then (Value.Number (atof gd.buf), timeInfo)
  else if type = SQL_REAL then (Value.Number (atof gd.buf), timeInfo)
  else if type = SQL_DOUBLE then (Value.Number (atof gd.buf), timeInfo)
  else if type = SQL_DATETIME then (Value.Date (timeInfo ++ [gd.buf]), timeInfo ++ [gd.buf])
  else if type = SQL_TIMESTAMP then (Value.Date (timeInfo ++ [gd.buf]), timeInfo ++ [gd.buf])
  else if type = SQL_BIT then
    (Value.Boolean (if firstByte gd.buf = '0' then false else true), timeInfo)
  else (Value.String gd.buf, timeInfo)

/-- Lines 302-363: the loop over the columns of a fetched row, from column
index `i` on. -/
def readColumns : List Column → List GetData → Nat → Tuple → TimeInfo →
    Tuple × TimeInfo × List Event
  | [], _, _, tuple, timeInfo => (tuple, timeInfo, [])
  | col :: cols, data, i, tuple, timeInfo =>
    let r := columnValue col.type (data.headD noData) timeInfo
    let rest := readColumns cols data.tail (i + 1) (tuple.Set col.name r.1) r.2
    (rest.1, rest.2.1, Event.SQLGetData (i + 1) :: rest.2.2)

/-- Lines 265-367: the row-fetch loop, entered with the rows fetched so far.
The index `count` of `rows->Set(Integer::New(count), tuple)` is the number of
rows set so far, so each row is added at the end. -/
def fetchLoop (columns : List Column) : List Fetch → List Tuple → TimeInfo →
    List Tuple × TimeInfo × List Event
  | [], rows, timeInfo => (rows, timeInfo, [Event.SQLFetch SQL_NO_DATA])
  | f :: fs, rows, timeInfo =>
    let info := if f.ret = SQL_SUCCESS_WITH_INFO then [Event.SQLError] else []
    if f.ret = SQL_ERROR then (rows, timeInfo, Event.SQLFetch f.ret :: info ++ [Event.SQLError])
    else if f.ret = SQL_NO_DATA then (rows, timeInfo, Event.SQLFetch f.ret :: info)
    else
      let row := readColumns columns f.data 0 [] timeInfo
      let rest := fetchLoop columns fs (rows ++ [row.1]) row.2.1
      (rest.1, rest.2.1, Event.SQLFetch f.ret :: info ++ row.2.2 ++ rest.2.2)

/-- The value of a 16-bit `short` after an `int` is stored in it, as in
`emitCount++`: the value modulo `2^16`, taken in `-32768 .. 32767`. -/
def toShort (n : Int) : Int := (n + 32768) % 65536 - 32768

/-- Lines 245-260: the column catalog of a result set. -/
def buildColumns (attrs : List ColAttr) : List Column :=
  attrs.map fun a => ⟨a.name, a.buflen % 4294967296, a.type⟩

/-- The `SQLColAttribute` calls of the catalog, two per column. -/
def columnCalls (n : Nat) : List Event :=
  (List.range n).flatMap fun i => [Event.SQLColAttribute (i + 1), Event.SQLColAttribute (i + 1)]

/-- One pass through the body of the result-set loop (lines 236-400). -/
structure Iteration where
  colCount : Int
  ret : Int
  calls : List Event
  emitted : Option Message
  emitCount : Int
  timeInfo : TimeInfo
  deriving DecidableEq, Repr

/-- Lines 236-400: the body of the result-set loop on one result set, entered
with the current `emitCount` and `timeInfo`. -/
def resultSetBody (rs : ResultSet) (emitCount : Int) (timeInfo : TimeInfo) : Iteration :=
  let colCount : Int := rs.columns.length
  let drained : List Tuple × TimeInfo × List Event :=
    if colCount > 0 then
      let r := fetchLoop (buildColumns rs.columns) rs.fetches [] timeInfo
      (r.1, r.2.1, columnCalls rs.columns.length ++ r.2.2)
    else ([], timeInfo, [])
  let ret := rs.moreResults
  let realloc := if ret ≠ SQL_SUCCESS then [Event.SQLFreeStmt, Event.SQLAllocHandleStmt] else []
  let calls := Event.SQLNumResultCols :: drained.2.2 ++ Event.SQLMoreResults ret :: realloc
  if colCount > 0 ∨ (ret ≠ SQL_SUCCESS ∧ emitCount = 0) then
    { colCount := colCount, ret := ret, calls := calls,
      emitted := some ⟨none, drained.1, if ret = SQL_SUCCESS then true else false⟩,
      emitCount := toShort (emitCount + 1), timeInfo := drained.2.1 }
  else
    { colCount := colCount, ret := ret, calls := calls, emitted := none,
      emitCount := emitCount, timeInfo := drained.2.1 }

/-- Lines 235-402: the `do ... while (self->canHaveMoreResults && ret ==
SQL_SUCCESS)` loop over the driver script. -/
def resultSetLoop (canHaveMoreResults : Int) : List ResultSet → Int → TimeInfo → List Iteration
  | [], emitCount, timeInfo => [resultSetBody noResultSet emitCount timeInfo]
  | rs :: rest, emitCount, timeInfo =>
    let it := resultSetBody rs emitCount timeInfo
    if canHaveMoreResults ≠ 0 ∧ it.ret = SQL_SUCCESS then
      it :: resultSetLoop canHaveMoreResults rest it.emitCount it.timeInfo
    else [it]

/-- The request object of libeio; `result` is the only field the code uses. -/
structure eio_req where
  result : Int
  deriving DecidableEq, Repr

/-- The request `eio_custom` hands to the worker: libeio allocates it with
`calloc`, so `result` starts at `0`. -/
def eio_custom : eio_req := ⟨0⟩

/-- `Database::EIO_AfterQuery` (lines 216-417): the passes of the result-set
loop, started with `emitCount = 0` and a zeroed `timeInfo`. The function
never reads `req->result`. -/
def EIO_AfterQuery (req : eio_req) (canHaveMoreResults : Int) (script : List ResultSet) :
    List Iteration :=
  resultSetLoop canHaveMoreResults script 0 []

/-- The events of a run: per pass its native calls, then its emit. -/
def events (its : List Iteration) : List Event :=
  its.flatMap fun it => it.calls ++ (it.emitted.map Event.Emit).toList

/-- The `'result'` messages of a run, in emission order. -/
def messages (its : List Iteration) : List Message :=
  its.filterMap fun it => it.emitted

/-- `Database::EIO_Query` (lines 419-445): the statement is reset when the
handle is non-null, the text is executed, and the return code of
`SQLExecDirect` goes to `req->result`. -/
def EIO_Query (hStmt : Bool) (execRet : Int) (req : eio_req) : eio_req × List Event :=
  let reset := if hStmt then [Event.SQLFreeStmt, Event.SQLAllocStmt] else []
  let diag := if execRet ≠ 0 then [Event.SQLError] else []
  ({ req with result := execRet }, reset ++ Event.SQLExecDirect :: diag)

/-- A query as libeio runs it: `EIO_Query` on the worker, then
`EIO_AfterQuery` with the same request. -/
def Query (hStmt : Bool) (execRet : Int) (canHaveMoreResults : Int) (script : List ResultSet) :
    List Event :=
  let q := EIO_Query hStmt execRet eio_custom
  q.2 ++ events (EIO_AfterQuery q.1 canHaveMoreResults script)

/-! ## `EIO_Open`, `EIO_Close` and their completions -/

/-- The native state of a `Database` object: which of the handles `m_hEnv`,
`m_hDBC`, `m_hStmt` are allocated in the driver (a handle that was allocated
stays so until a free of it takes effect), whether the connection is
established, and the member `canHaveMoreResults`. -/
structure Database where
  m_hEnv : Bool
  m_hDBC : Bool
  m_hStmt : Bool
  connected : Bool
  canHaveMoreResults : Int
  deriving DecidableEq, Repr

/-- A `Database` object before `open`: nothing is allocated. -/
def Database.fresh : Database := ⟨false, false, false, false, 0⟩

/-- The Closed state of a connection: no handle is allocated and the
connection is not established. -/
def Database.Closed (self : Database) : Prop :=
  self.m_hEnv = false ∧ self.m_hDBC = false ∧ self.m_hStmt = false ∧ self.connected = false

instance (self : Database) : Decidable self.Closed := by
  unfold Database.Closed; infer_instance

/-- The answers of the driver to the calls of `EIO_Open`: the return codes,
the value `SQLGetFunctions` stores, and the return codes of the
`SQLGetDiagRec` calls of `printError`. An allocation or a connect takes
effect in the driver when its return code satisfies `SQL_SUCCEEDED`. -/
structure OpenScript where
  allocEnv : Int
  allocConnect : Int
  driverConnect : Int
  allocStmt : Int
  getFunctions : Int
  supported : Int
  diagRecs : List Int
  deriving DecidableEq, Repr

/-- `Database::printError` (lines 475-497): the `do ... while (ret ==
SQL_SUCCESS)` loop over the diagnostic records. -/
def printError : List Int → List Event
  | [] => [Event.SQLGetDiagRec]
  | ret :: rest =>
    if ret = SQL_SUCCESS then Event.SQLGetDiagRec :: printError rest else [Event.SQLGetDiagRec]

/-- `Database::EIO_Open` (lines 91-121). -/
def EIO_Open (self : Database) (d : OpenScript) (req : eio_req) :
    Database × eio_req × List Event :=
  let self1 := { self with m_hEnv := self.m_hEnv || SQL_SUCCEEDED d.allocEnv }
  if d.allocEnv = SQL_SUCCESS then
    let self2 := { self1 with m_hDBC := self1.m_hDBC || SQL_SUCCEEDED d.allocConnect }
    if d.allocConnect = SQL_SUCCESS then
      let self3 := { self2 with connected := self2.connected || SQL_SUCCEEDED d.driverConnect }
      if d.driverConnect = SQL_SUCCESS ∨ d.driverConnect = SQL_SUCCESS_WITH_INFO then
        let self4 := { self3 with
          m_hStmt := self3.m_hStmt || SQL_SUCCEEDED d.allocStmt
          canHaveMoreResults := if SQL_SUCCEEDED d.getFunctions then d.supported else 0 }
        (self4, { req with result := d.allocStmt },
          [Event.SQLAllocEnv, Event.SQLAllocConnect, Event.SQLSetConnectOption,
            Event.SQLDriverConnect, Event.SQLAllocStmt, Event.SQLGetFunctions])
      else
        (self3, { req with result := d.driverConnect },
          [Event.SQLAllocEnv, Event.SQLAllocConnect, Event.SQLSetConnectOption,
            Event.SQLDriverConnect] ++ printError d.diagRecs)
    else
      (self2, { req with result := d.allocConnect }, [Event.SQLAllocEnv, Event.SQLAllocConnect])
  else
    (self1, { req with result := d.allocEnv }, [Event.SQLAllocEnv])

/-- The error argument of a completion callback: `none` when the callback is
called with no argument. -/
abbrev CallbackError := Option String

/-- `Database::EIO_AfterOpen` (lines 62-89): the argument of the callback. -/
def EIO_AfterOpen (req : eio_req) : CallbackError :=
  if req.result ≠ 0 then some "Error opening database" else none

/-- The return codes of the three native calls of `EIO_Close`. A disconnect
or a free takes effect in the driver when its return code satisfies
`SQL_SUCCEEDED`; a disconnect that takes effect also drops the statements of
the connection. -/
structure CloseScript where
  disconnect : Int
  freeEnv : Int
  freeDbc : Int
  deriving DecidableEq, Repr

/-- `Database::EIO_Close` (lines 181-188): the three calls are made one after
the other, their return codes are dropped, `req` is not written. -/
def EIO_Close (self : Database) (d : CloseScript) (req : eio_req) :
    Database × eio_req × List Event :=
  ({ self with
      connected := self.connected && !SQL_SUCCEEDED d.disconnect
      m_hStmt := self.m_hStmt && !SQL_SUCCEEDED d.disconnect
      m_hEnv := self.m_hEnv && !SQL_SUCCEEDED d.freeEnv
      m_hDBC := self.m_hDBC && !SQL_SUCCEEDED d.freeDbc },
    req, [Event.SQLDisconnect, Event.SQLFreeHandleEnv, Event.SQLFreeHandleDbc])

/-- `Database::EIO_AfterClose` (lines 151-179): the argument of the callback. -/
def EIO_AfterClose (req : eio_req) : CallbackError :=
  if req.result ≠ 0 then some "Error closing database" else none

/-- `Database::Close` as libeio runs it: `EIO_Close` on the worker, then
`EIO_AfterClose` with the same request. Returns the state, the native calls
and the argument of the callback. -/
def Close (self : Database) (d : CloseScript) : Database × List Event × CallbackError :=
  let r := EIO_Close self d eio_custom
  (r.1, r.2.2, EIO_AfterClose r.2.1)

/-- `Database::Open` as libeio runs it. -/
def Open (self : Database) (d : OpenScript) : Database × List Event × CallbackError :=
  let r := EIO_Open self d eio_custom
  (r.1, r.2.2, EIO_AfterOpen r.2.1)

/-- The native calls that release a handle. -/
def Event.isFree : Event → Bool
  | .SQLFreeHandleEnv => true
  | .SQLFreeHandleDbc => true
  | .SQLFreeStmt => true
  | _ => false

/-! ## Notions the properties are stated with -/

/-- A fetch return code that ends the row-fetch loop. -/
def fetchStops (ret : Int) : Bool := ret == SQL_ERROR || ret == SQL_NO_DATA

/-- The fetches of a script that precede the first `SQL_ERROR` or
`SQL_NO_DATA`. -/
def fetchedHead (fetches : List Fetch) : List Fetch :=
  fetches.takeWhile fun f => !fetchStops f.ret

/-- The return code of the fetch that ends the loop: the first `SQL_ERROR`
or `SQL_NO_DATA` of the script, `SQL_NO_DATA` when the script has none. -/
def stopCode (fetches : List Fetch) : Int :=
  match fetches.dropWhile fun f => !fetchStops f.ret with
  | [] => SQL_NO_DATA
  | f :: _ => f.ret

/-- The rows of a list of fetches, one per fetch, in fetch order. -/
def rowsOf (columns : List Column) : List Fetch → TimeInfo → List Tuple
  | [], _ => []
  | f :: fs, timeInfo =>
    let row := readColumns columns f.data 0 [] timeInfo
    row.1 :: rowsOf columns fs row.2.1

/-- The return codes of the `SQLFetch` calls among some events, in order. -/
def fetchCodes (evs : List Event) : List Int :=
  evs.filterMap fun e => match e with
    | .SQLFetch ret => some ret
    | _ => none

/-- The number of rows of a result set whose fetches succeed until
no-more-data: the fetches of its script that precede the first
`SQL_NO_DATA`. -/
def rowCount (rs : ResultSet) : Nat :=
  (rs.fetches.takeWhile fun f => decide (f.ret ≠ SQL_NO_DATA)).length

/-- Every fetch of the result set succeeds until no-more-data: the fetches
that precede the first `SQL_NO_DATA` return `SQL_SUCCESS` or
`SQL_SUCCESS_WITH_INFO`. -/
def fetchesSucceed (rs : ResultSet) : Prop :=
  ∀ f ∈ rs.fetches.takeWhile (fun f => decide (f.ret ≠ SQL_NO_DATA)), SQL_SUCCEEDED f.ret = true

instance (rs : ResultSet) : Decidable (fetchesSucceed rs) := by
  unfold fetchesSucceed; infer_instance

/-! ## Concrete driver scripts -/

/-- A query with three result sets that all have one column, of 2, 0 and 1
rows. -/
def threeSets : List ResultSet :=
  [ ⟨[⟨"a".toList, 1, SQL_INTEGER⟩],
      [⟨SQL_SUCCESS, [⟨SQL_SUCCESS, 1, "1".toList⟩]⟩,
       ⟨SQL_SUCCESS, [⟨SQL_SUCCESS, 1, "2".toList⟩]⟩, ⟨SQL_NO_DATA, []⟩], SQL_SUCCESS⟩,
    ⟨[⟨"b".toList, 1, SQL_BIT⟩], [⟨SQL_NO_DATA, []⟩], SQL_SUCCESS⟩,
    ⟨[⟨"c".toList, 1, SQL_VARCHAR⟩],
      [⟨SQL_SUCCESS, [⟨SQL_SUCCESS, 1, "x".toList⟩]⟩, ⟨SQL_NO_DATA, []⟩], SQL_NO_DATA⟩ ]

/-- A result set with one column whose third fetch fails: a row, a row
fetched with `SQL_SUCCESS_WITH_INFO`, then `SQL_ERROR`; the script would have
one more row to give. -/
def brokenSet : ResultSet :=
  ⟨[⟨"a".toList, 1, SQL_VARCHAR⟩],
    [⟨SQL_SUCCESS, [⟨SQL_SUCCESS, 1, "x".toList⟩]⟩,
     ⟨SQL_SUCCESS_WITH_INFO, [⟨SQL_SUCCESS, 1, "y".toList⟩]⟩,
     ⟨SQL_ERROR, []⟩,
     ⟨SQL_SUCCESS, [⟨SQL_SUCCESS, 1, "z".toList⟩]⟩], SQL_SUCCESS⟩

/-- A query with two result sets of one column and one row each, whose
`SQLMoreResults` returns `SQL_SUCCESS_WITH_INFO` after the first: the second
result set is there, and the driver has a diagnostic to report. -/
def infoSets : List ResultSet :=
  [ ⟨[⟨"a".toList, 1, SQL_INTEGER⟩],
      [⟨SQL_SUCCESS, [⟨SQL_SUCCESS, 1, "1".toList⟩]⟩, ⟨SQL_NO_DATA, []⟩],
      SQL_SUCCESS_WITH_INFO⟩,
    ⟨[⟨"b".toList, 1, SQL_VARCHAR⟩],
      [⟨SQL_SUCCESS, [⟨SQL_SUCCESS, 1, "x".toList⟩]⟩, ⟨SQL_NO_DATA, []⟩], SQL_NO_DATA⟩ ]

/-- A result set with one column and no row, followed by a further result
set. -/
def oneColumnSet : ResultSet := ⟨[⟨"a".toList, 1, SQL_INTEGER⟩], [], SQL_SUCCESS⟩

/-- A last result set without columns, as a statement that returns no rows
leaves. -/
def noColumnEnd : ResultSet := ⟨[], [], SQL_NO_DATA⟩

/-- A query with 65536 result sets that have a column, then a last one
without columns. -/
def wrapScript : List ResultSet := List.replicate 65536 oneColumnSet ++ [noColumnEnd]

/-! ## Lemmas on rows and on `atof` -/

theorem Tuple.Get_Set (t : Tuple) (name : List Char) (v : Value) :
    (t.Set name v).Get name = some v := by
  induction t with
  | nil => simp [Tuple.Set, Tuple.Get]
  | cons p t ih =>
    obtain ⟨k, w⟩ := p
    by_cases h : k = name
    · simp [Tuple.Set, Tuple.Get, h]
    · simp [Tuple.Set, Tuple.Get, h, ih]

theorem readDigits_not_digit (b : Nat) (isd : Char → Bool) (val : Char → Nat) (acc n : Nat)
    (s : List Char) (h : ∀ c r, s = c :: r → isd c = false) :
    readDigits b isd val acc n s = (acc, n, s) := by
  cases s with
  | nil => rfl
  | cons c r => simp [readDigits, h c r rfl]

theorem strtodUnsigned_none (neg : Bool) (t : List Char)
    (h : (match t with
      | [] => false
      | c :: r =>
        isdigit c || (c == '.' && (match r with | d :: _ => isdigit d | [] => false))
          || startsWithCI "inf".toList t || startsWithCI "nan".toList t) = false) :
    strtodUnsigned neg t = none := by
  cases t with
  | nil => cases neg <;> decide
  | cons c r =>
    simp only [Bool.or_eq_false_iff, Bool.and_eq_false_iff] at h
    obtain ⟨⟨⟨hd, hp⟩, hinf⟩, hnan⟩ := h
    have h0 : c ≠ '0' := by
      rintro rfl
      exact absurd hd (by decide)
    have hdig : readDigits 10 isdigit digitVal 0 0 (c :: r) = (0, 0, c :: r) :=
      readDigits_not_digit _ _ _ _ _ _ (by intro c' r' e; cases e; exact hd)
    have hhex : (match c :: r with
      | '0' :: x :: r =>
        if tolower x == 'x' then
          let (m, n, f, rest) := readMantissa 16 isxdigit xdigitVal r
          if n = 0 then none
          else some (CDouble.fin neg m 2 (readExponent 'p' rest - 4 * (f : Int)))
        else none
      | _ => (none : Option CDouble)) = none := by
      split
      · rename_i heq
        cases heq
        exact absurd rfl h0
      · rfl
    have hman : (readMantissa 10 isdigit digitVal (c :: r)).2.1 = 0 := by
      unfold readMantissa
      rw [hdig]
      by_cases hc : c = '.'
      · subst hc
        have hr : readDigits 10 isdigit digitVal 0 0 r = (0, 0, r) := by
          apply readDigits_not_digit
          intro c' r' e
          subst e
          rcases hp with hp | hp
          · exact absurd hp (by decide)
          · simpa using hp
        simp [hr]
      · simp only
        split
        · rename_i heq
          cases heq
          exact absurd rfl hc
        · rfl
    unfold strtodUnsigned
    simp only [hinf, hnan, Bool.false_eq_true, if_false]
    rw [hhex]
    simp only
    revert hman
    generalize readMantissa 10 isdigit digitVal (c :: r) = q
    obtain ⟨m, n, f, rest⟩ := q
    intro hman
    simp only at hman
    simp [hman]

/-- A text without a parseable numeric prefix is converted to zero. -/
theorem atof_without_conversion (s : List Char) (h : startsNumeric s = false) :
    atof s = CDouble.zero := by
  unfold startsNumeric at h
  unfold atof strtod
  split at h
  all_goals
    rw [strtodUnsigned_none _ _ h]
    rfl

/-! ## Column values (C3, C8, C9) -/

theorem ite_fst_ne_null (c : Prop) [Decidable c] (a b : Value × TimeInfo)
    (ha : a.1 ≠ Value.Null) (hb : b.1 ≠ Value.Null) :
    (if c then a else b).1 ≠ Value.Null := by
  split <;> assumption

theorem columnValue_null (type : Int) (gd : GetData) (timeInfo : TimeInfo) :
    (columnValue type gd timeInfo).1 = Value.Null ↔ (gd.ret = SQL_NULL_DATA ∨ gd.len < 0) := by
  unfold columnValue
  by_cases h : gd.ret = SQL_NULL_DATA ∨ gd.len < 0
  · simp [h]
  · simp only [h, if_false, iff_false]
    repeat' apply ite_fst_ne_null
    all_goals exact fun e => Value.noConfusion e

theorem columnValue_numeric (type : Int) (gd : GetData) (timeInfo : TimeInfo)
    (hty : type ∈ numericFamily) (hret : gd.ret ≠ SQL_NULL_DATA) (hlen : 0 ≤ gd.len) :
    columnValue type gd timeInfo = (Value.Number (atof gd.buf), timeInfo) := by
  have h : ¬ (gd.ret = SQL_NULL_DATA ∨ gd.len < 0) := by
    rintro (h | h)
    · exact hret h
    · omega
  unfold columnValue
  simp only [h, if_false]
  simp only [numericFamily, List.mem_cons, List.mem_singleton, List.not_mem_nil, or_false] at hty
  rcases hty with r | r | r | r | r | r | r <;> subst r <;>
    simp [SQL_NUMERIC, SQL_DECIMAL, SQL_INTEGER, SQL_SMALLINT, SQL_FLOAT, SQL_REAL, SQL_DOUBLE]

/-- C3, as stated, fails: a column read that succeeds (return code
`SQL_SUCCESS`) and reports length `0` is not mapped to `Null`. Under a text
type code the row gets the empty `String`, under `SQL_INTEGER` the `Number`
zero, under `SQL_BIT` the `Boolean` true. -/
theorem C3_counterexample :
    (⟨SQL_SUCCESS, 0, []⟩ : GetData).len ≤ 0 ∧
    (columnValue SQL_VARCHAR ⟨SQL_SUCCESS, 0, []⟩ []).1 = Value.String [] ∧
    (columnValue SQL_INTEGER ⟨SQL_SUCCESS, 0, []⟩ []).1 = Value.Number CDouble.zero ∧
    (columnValue SQL_BIT ⟨SQL_SUCCESS, 0, []⟩ []).1 = Value.Boolean true ∧
    (readColumns [⟨"c".toList, 1, SQL_VARCHAR⟩] [⟨SQL_SUCCESS, 0, []⟩] 0 [] []).1
      = [("c".toList, Value.String [])] := by
  decide

/-- C3, amended: for every type code and every buffer content the value of a
column is `Null` exactly when the column read returned `SQL_NULL_DATA` (-1)
or reported a negative length; the same holds for the value then found in
the row under the column's name. A reported length of `0` alone never gives
`Null`. -/
theorem C3_null_mapping (type : Int) (gd : GetData) (timeInfo : TimeInfo)
    (tuple : Tuple) (name : List Char) :
    ((columnValue type gd timeInfo).1 = Value.Null ↔ (gd.ret = SQL_NULL_DATA ∨ gd.len < 0)) ∧
    ((tuple.Set name (columnValue type gd timeInfo).1).Get name = some Value.Null ↔
      (gd.ret = SQL_NULL_DATA ∨ gd.len < 0)) := by
  refine ⟨columnValue_null type gd timeInfo, ?_⟩
  rw [Tuple.Get_Set, Option.some_inj]
  exact columnValue_null type gd timeInfo

/-- C8, as stated, fails: the text `"abc"` has no parseable numeric prefix,
and under `SQL_NUMERIC` the value of the column is the `Number` zero, which
is not Not-a-Number. -/
theorem C8_counterexample :
    startsNumeric "abc".toList = false ∧
    (columnValue SQL_NUMERIC ⟨SQL_SUCCESS, 3, "abc".toList⟩ []).1 = Value.Number CDouble.zero ∧
    (columnValue SQL_NUMERIC ⟨SQL_SUCCESS, 3, "abc".toList⟩ []).1 ≠ Value.Number CDouble.nan := by
  decide

/-- C8, amended: for every numeric-family type code and every non-null column
text without a parseable numeric prefix, the value of the column is the
`Number` zero that `atof` returns when it can convert nothing, and the row is
still produced: the fetch loop appends the row that holds this value and goes
on with the next fetch. -/
theorem C8_numeric_unparseable (type : Int) (gd : GetData) (timeInfo : TimeInfo)
    (hty : type ∈ numericFamily) (hret : gd.ret ≠ SQL_NULL_DATA) (hlen : 0 ≤ gd.len)
    (hpre : startsNumeric gd.buf = false) :
    (columnValue type gd timeInfo).1 = Value.Number CDouble.zero ∧
    ∀ (name : List Char) (len : Int) (fs : List Fetch) (rows : List Tuple),
      fetchLoop [⟨name, len, type⟩] (⟨SQL_SUCCESS, [gd]⟩ :: fs) rows timeInfo =
        ((fetchLoop [⟨name, len, type⟩] fs
            (rows ++ [[(name, Value.Number CDouble.zero)]]) timeInfo).1,
         (fetchLoop [⟨name, len, type⟩] fs
            (rows ++ [[(name, Value.Number CDouble.zero)]]) timeInfo).2.1,
         Event.SQLFetch SQL_SUCCESS :: Event.SQLGetData 1 ::
          (fetchLoop [⟨name, len, type⟩] fs
            (rows ++ [[(name, Value.Number CDouble.zero)]]) timeInfo).2.2) := by
  have hv := columnValue_numeric type gd timeInfo hty hret hlen
  rw [atof_without_conversion _ hpre] at hv
  refine ⟨by rw [hv], ?_⟩
  intro name len fs rows
  have h1 : SQL_SUCCESS ≠ SQL_ERROR := by decide
  have h2 : SQL_SUCCESS ≠ SQL_NO_DATA := by decide
  have h3 : SQL_SUCCESS ≠ SQL_SUCCESS_WITH_INFO := by decide
  simp [fetchLoop, readColumns, Tuple.Set, hv, h1, h2, h3]

theorem C8_numeric_unparseable_witness :
    (columnValue SQL_DOUBLE ⟨SQL_SUCCESS, 3, "abc".toList⟩ []).1 = Value.Number CDouble.zero :=
  (C8_numeric_unparseable SQL_DOUBLE ⟨SQL_SUCCESS, 3, "abc".toList⟩ []
    (by decide) (by decide) (by decide) (by decide)).1

/-- C9: for every non-null column read under `SQL_BIT` the value of the
column, and the value then found in the row under the column's name, is a
`Boolean` that is true exactly when the first byte of the buffer is not the
character `'0'`; the text `"0"` gives false and the text `"1"` gives true. -/
theorem C9_boolean_mapping (gd : GetData) (timeInfo : TimeInfo) (tuple : Tuple)
    (name : List Char) (hret : gd.ret ≠ SQL_NULL_DATA) (hlen : 0 ≤ gd.len) :
    (∃ b : Bool, (columnValue SQL_BIT gd timeInfo).1 = Value.Boolean b ∧
      (tuple.Set name (columnValue SQL_BIT gd timeInfo).1).Get name = some (Value.Boolean b) ∧
      (b = true ↔ firstByte gd.buf ≠ '0')) ∧
    (gd.buf = "0".toList → (columnValue SQL_BIT gd timeInfo).1 = Value.Boolean false) ∧
    (gd.buf = "1".toList → (columnValue SQL_BIT gd timeInfo).1 = Value.Boolean true) := by
  have h : ¬ (gd.ret = SQL_NULL_DATA ∨ gd.len < 0) := by
    rintro (h | h)
    · exact hret h
    · omega
  have hv : columnValue SQL_BIT gd timeInfo =
      (Value.Boolean (if firstByte gd.buf = '0' then false else true), timeInfo) := by
    unfold columnValue
    simp [h, SQL_NUMERIC, SQL_DECIMAL, SQL_INTEGER, SQL_SMALLINT, SQL_FLOAT, SQL_REAL,
      SQL_DOUBLE, SQL_DATETIME, SQL_TIMESTAMP, SQL_BIT]
  refine ⟨⟨if firstByte gd.buf = '0' then false else true, by rw [hv], ?_, ?_⟩, ?_, ?_⟩
  · rw [Tuple.Get_Set, hv]
  · by_cases hb : firstByte gd.buf = '0' <;> simp [hb]
  · intro hb
    rw [hv, hb]
    rfl
  · intro hb
    rw [hv, hb]
    rfl

theorem C9_boolean_mapping_witness :
    (columnValue SQL_BIT ⟨SQL_SUCCESS, 1, "0".toList⟩ []).1 = Value.Boolean false :=
  (C9_boolean_mapping ⟨SQL_SUCCESS, 1, "0".toList⟩ [] [] "flag".toList
    (by decide) (by decide)).2.1 rfl

/-! ## The row-fetch loop (C10) -/

theorem readColumns_fetchCodes (columns : List Column) (data : List GetData) (i : Nat)
    (tuple : Tuple) (timeInfo : TimeInfo) :
    fetchCodes (readColumns columns data i tuple timeInfo).2.2 = [] := by
  induction columns generalizing data i tuple timeInfo with
  | nil => rfl
  | cons c cs ih =>
    simp only [readColumns, fetchCodes, List.filterMap_cons]
    exact ih _ _ _ _

theorem fetchCodes_append (a b : List Event) :
    fetchCodes (a ++ b) = fetchCodes a ++ fetchCodes b := by
  simp [fetchCodes, List.filterMap_append]

theorem fetchLoop_error (columns : List Column) (f : Fetch) (fs : List Fetch)
    (rows : List Tuple) (timeInfo : TimeInfo) (h : f.ret = SQL_ERROR) :
    fetchLoop columns (f :: fs) rows timeInfo =
      (rows, timeInfo, [Event.SQLFetch f.ret, Event.SQLError]) := by
  have h3 : f.ret ≠ SQL_SUCCESS_WITH_INFO := by rw [h]; decide
  unfold fetchLoop
  simp only [if_pos h, if_neg h3, List.nil_append, List.cons_append]

theorem fetchLoop_no_data (columns : List Column) (f : Fetch) (fs : List Fetch)
    (rows : List Tuple) (timeInfo : TimeInfo) (h : f.ret = SQL_NO_DATA) :
    fetchLoop columns (f :: fs) rows timeInfo = (rows, timeInfo, [Event.SQLFetch f.ret]) := by
  have h1 : f.ret ≠ SQL_ERROR := by rw [h]; decide
  have h3 : f.ret ≠ SQL_SUCCESS_WITH_INFO := by rw [h]; decide
  unfold fetchLoop
  simp only [if_neg h1, if_pos h, if_neg h3]

theorem fetchLoop_row (columns : List Column) (f : Fetch) (fs : List Fetch)
    (rows : List Tuple) (timeInfo : TimeInfo) (h : fetchStops f.ret = false) :
    fetchLoop columns (f :: fs) rows timeInfo =
      ((fetchLoop columns fs (rows ++ [(readColumns columns f.data 0 [] timeInfo).1])
          (readColumns columns f.data 0 [] timeInfo).2.1).1,
       (fetchLoop columns fs (rows ++ [(readColumns columns f.data 0 [] timeInfo).1])
          (readColumns columns f.data 0 [] timeInfo).2.1).2.1,
       Event.SQLFetch f.ret ::
        (if f.ret = SQL_SUCCESS_WITH_INFO then [Event.SQLError] else []) ++
        (readColumns columns f.data 0 [] timeInfo).2.2 ++
        (fetchLoop columns fs (rows ++ [(readColumns columns f.data 0 [] timeInfo).1])
          (readColumns columns f.data 0 [] timeInfo).2.1).2.2) := by
  simp only [fetchStops, Bool.or_eq_false_iff, beq_eq_false_iff_ne, ne_eq] at h
  conv_lhs => unfold fetchLoop
  simp only [if_neg h.1, if_neg h.2]

theorem fetchStops_of_error {ret : Int} (h : ret = SQL_ERROR) : fetchStops ret = true := by
  subst h; decide

theorem fetchStops_of_no_data {ret : Int} (h : ret = SQL_NO_DATA) : fetchStops ret = true := by
  subst h; decide

theorem fetchedHead_stop (f : Fetch) (fs : List Fetch) (h : fetchStops f.ret = true) :
    fetchedHead (f :: fs) = [] := by
  simp [fetchedHead, h]

theorem fetchedHead_go (f : Fetch) (fs : List Fetch) (h : fetchStops f.ret = false) :
    fetchedHead (f :: fs) = f :: fetchedHead fs := by
  simp [fetchedHead, h]

theorem stopCode_stop (f : Fetch) (fs : List Fetch) (h : fetchStops f.ret = true) :
    stopCode (f :: fs) = f.ret := by
  simp [stopCode, h]

theorem stopCode_go (f : Fetch) (fs : List Fetch) (h : fetchStops f.ret = false) :
    stopCode (f :: fs) = stopCode fs := by
  simp [stopCode, h]

theorem fetchLoop_rows (columns : List Column) (fetches : List Fetch) (rows : List Tuple)
    (timeInfo : TimeInfo) :
    (fetchLoop columns fetches rows timeInfo).1 =
      rows ++ rowsOf columns (fetchedHead fetches) timeInfo := by
  induction fetches generalizing rows timeInfo with
  | nil => simp [fetchLoop, fetchedHead, rowsOf]
  | cons f fs ih =>
    by_cases h1 : f.ret = SQL_ERROR
    · rw [fetchLoop_error _ _ _ _ _ h1, fetchedHead_stop _ _ (fetchStops_of_error h1)]
      simp [rowsOf]
    · by_cases h2 : f.ret = SQL_NO_DATA
      · rw [fetchLoop_no_data _ _ _ _ _ h2, fetchedHead_stop _ _ (fetchStops_of_no_data h2)]
        simp [rowsOf]
      · have h : fetchStops f.ret = false := by simp [fetchStops, h1, h2]
        rw [fetchLoop_row _ _ _ _ _ h, fetchedHead_go _ _ h]
        simp only [ih, rowsOf, List.append_assoc, List.singleton_append]

theorem fetchLoop_fetchCodes (columns : List Column) (fetches : List Fetch) (rows : List Tuple)
    (timeInfo : TimeInfo) :
    fetchCodes (fetchLoop columns fetches rows timeInfo).2.2 =
      (fetchedHead fetches).map (fun f => f.ret) ++ [stopCode fetches] := by
  induction fetches generalizing rows timeInfo with
  | nil => simp [fetchLoop, fetchedHead, stopCode, fetchCodes]
  | cons f fs ih =>
    by_cases h1 : f.ret = SQL_ERROR
    · have hs := fetchStops_of_error h1
      rw [fetchLoop_error _ _ _ _ _ h1, fetchedHead_stop _ _ hs, stopCode_stop _ _ hs]
      rfl
    · by_cases h2 : f.ret = SQL_NO_DATA
      · have hs := fetchStops_of_no_data h2
        rw [fetchLoop_no_data _ _ _ _ _ h2, fetchedHead_stop _ _ hs, stopCode_stop _ _ hs]
        rfl
      · have h : fetchStops f.ret = false := by simp [fetchStops, h1, h2]
        rw [fetchLoop_row _ _ _ _ _ h, fetchedHead_go _ _ h, stopCode_go _ _ h]
        have hinfo : fetchCodes (if f.ret = SQL_SUCCESS_WITH_INFO then [Event.SQLError] else [])
            = [] := by
          split <;> rfl
        have hcons : ∀ l, fetchCodes (Event.SQLFetch f.ret :: l) = f.ret :: fetchCodes l :=
          fun l => rfl
        simp only [List.cons_append, hcons, fetchCodes_append, hinfo, readColumns_fetchCodes,
          List.nil_append, ih, List.map_cons]

theorem rowsOf_length (columns : List Column) (fetches : List Fetch) (timeInfo : TimeInfo) :
    (rowsOf columns fetches timeInfo).length = fetches.length := by
  induction fetches generalizing timeInfo with
  | nil => rfl
  | cons f fs ih => simp [rowsOf, ih]

/-! ## One pass of the result-set loop -/

theorem colCount_pos (rs : ResultSet) : ((rs.columns.length : Int) > 0) ↔ rs.columns ≠ [] := by
  cases h : rs.columns with
  | nil => simp
  | cons c cs => simp

theorem resultSetBody_ret (rs : ResultSet) (emitCount : Int) (timeInfo : TimeInfo) :
    (resultSetBody rs emitCount timeInfo).ret = rs.moreResults := by
  unfold resultSetBody
  simp only
  split <;> rfl

theorem resultSetBody_colCount (rs : ResultSet) (emitCount : Int) (timeInfo : TimeInfo) :
    (resultSetBody rs emitCount timeInfo).colCount = rs.columns.length := by
  unfold resultSetBody
  simp only
  split <;> rfl

theorem resultSetBody_emitted (rs : ResultSet) (emitCount : Int) (timeInfo : TimeInfo) :
    (resultSetBody rs emitCount timeInfo).emitted =
      if rs.columns ≠ [] then
        some ⟨none, (fetchLoop (buildColumns rs.columns) rs.fetches [] timeInfo).1,
          if rs.moreResults = SQL_SUCCESS then true else false⟩
      else if rs.moreResults ≠ SQL_SUCCESS ∧ emitCount = 0 then some ⟨none, [], false⟩
      else none := by
  unfold resultSetBody
  by_cases hc : rs.columns ≠ []
  · have hp := (colCount_pos rs).2 hc
    simp only [hp, true_or, if_true, if_pos hc]
  · have hp : ¬ ((rs.columns.length : Int) > 0) := fun h => hc ((colCount_pos rs).1 h)
    simp only [hp, false_or, if_false, if_neg hc]
    by_cases hm : rs.moreResults ≠ SQL_SUCCESS ∧ emitCount = 0
    · rw [if_pos hm, if_pos hm]
      simp only [if_neg hm.1]
    · rw [if_neg hm, if_neg hm]

theorem resultSetBody_emitCount (rs : ResultSet) (emitCount : Int) (timeInfo : TimeInfo) :
    (resultSetBody rs emitCount timeInfo).emitCount =
      if (resultSetBody rs emitCount timeInfo).emitted = none then emitCount
      else toShort (emitCount + 1) := by
  unfold resultSetBody
  simp only
  split <;> simp

theorem resultSetBody_calls (rs : ResultSet) (emitCount : Int) (timeInfo : TimeInfo) :
    (resultSetBody rs emitCount timeInfo).calls =
      Event.SQLNumResultCols ::
        (if rs.columns ≠ [] then
          columnCalls rs.columns.length ++
            (fetchLoop (buildColumns rs.columns) rs.fetches [] timeInfo).2.2
         else []) ++
        Event.SQLMoreResults rs.moreResults ::
          (if rs.moreResults ≠ SQL_SUCCESS then [Event.SQLFreeStmt, Event.SQLAllocHandleStmt]
           else []) := by
  unfold resultSetBody
  by_cases hc : rs.columns ≠ []
  · have hp := (colCount_pos rs).2 hc
    simp only [hp, true_or, if_true, if_pos hc]
  · have hp : ¬ ((rs.columns.length : Int) > 0) := fun h => hc ((colCount_pos rs).1 h)
    simp only [hp, false_or, if_false, if_neg hc]
    split <;> rfl

theorem columnCalls_fetchCodes (n : Nat) : fetchCodes (columnCalls n) = [] := by
  unfold columnCalls fetchCodes
  rw [List.filterMap_eq_nil_iff]
  intro e he
  simp only [List.mem_flatMap, List.mem_range, List.mem_cons, List.mem_singleton,
    List.not_mem_nil, or_false, or_self] at he
  obtain ⟨i, _, rfl⟩ := he
  rfl

/-! ## The result-set loop -/

theorem resultSetLoop_cons (can : Int) (rs : ResultSet) (rest : List ResultSet)
    (emitCount : Int) (timeInfo : TimeInfo) :
    resultSetLoop can (rs :: rest) emitCount timeInfo =
      resultSetBody rs emitCount timeInfo ::
        (if can ≠ 0 ∧ rs.moreResults = SQL_SUCCESS then
          resultSetLoop can rest (resultSetBody rs emitCount timeInfo).emitCount
            (resultSetBody rs emitCount timeInfo).timeInfo
         else []) := by
  conv_lhs => unfold resultSetLoop
  simp only [resultSetBody_ret]
  split <;> rfl

theorem messages_cons (it : Iteration) (its : List Iteration) :
    messages (it :: its) = it.emitted.toList ++ messages its := by
  unfold messages
  cases h : it.emitted <;> simp [List.filterMap_cons, h]

theorem messages_singleton_length (it : Iteration) : (messages [it]).length ≤ 1 := by
  rw [messages_cons]
  cases it.emitted <;> simp [messages]

/-- An emitted message has `hasMore` set exactly when `SQLMoreResults`
returned `SQL_SUCCESS` in its pass. -/
theorem emitted_hasMore (rs : ResultSet) (emitCount : Int) (timeInfo : TimeInfo) (m : Message)
    (h : (resultSetBody rs emitCount timeInfo).emitted = some m) :
    (m.hasMore = true ↔ rs.moreResults = SQL_SUCCESS) ∧ m.error = none := by
  rw [resultSetBody_emitted] at h
  by_cases hc : rs.columns ≠ []
  · rw [if_pos hc] at h
    cases h
    by_cases hm : rs.moreResults = SQL_SUCCESS <;> simp [hm]
  · rw [if_neg hc] at h
    by_cases hm : rs.moreResults ≠ SQL_SUCCESS ∧ emitCount = 0
    · rw [if_pos hm] at h
      cases h
      simp [hm.1]
    · rw [if_neg hm] at h
      cases h

theorem short_list_split {α : Type} (l pre post : List α) (m : α) (hl : l.length ≤ 1)
    (h : l = pre ++ m :: post) : post = [] := by
  have := congrArg List.length h
  simp only [List.length_append, List.length_cons] at this
  exact List.eq_nil_of_length_eq_zero (by omega)

/-- A message with `hasMore = false` is the last message of the run. -/
theorem hasMore_false_is_last (can : Int) (script : List ResultSet) (emitCount : Int)
    (timeInfo : TimeInfo) (pre : List Message) (m : Message) (post : List Message)
    (h : messages (resultSetLoop can script emitCount timeInfo) = pre ++ m :: post)
    (hm : m.hasMore = false) : post = [] := by
  induction script generalizing emitCount timeInfo pre with
  | nil => exact short_list_split _ _ _ _ (messages_singleton_length _) h
  | cons rs rest ih =>
    rw [resultSetLoop_cons] at h
    by_cases hgo : can ≠ 0 ∧ rs.moreResults = SQL_SUCCESS
    · rw [if_pos hgo, messages_cons] at h
      cases he : (resultSetBody rs emitCount timeInfo).emitted with
      | none =>
        rw [he] at h
        exact ih _ _ _ h
      | some m0 =>
        rw [he] at h
        have hm0 := ((emitted_hasMore rs emitCount timeInfo m0 he).1).2 hgo.2
        cases pre with
        | nil =>
          simp only [Option.toList, List.singleton_append, List.nil_append,
            List.cons.injEq] at h
          rw [← h.1, hm0] at hm
          cases hm
        | cons p pre' =>
          simp only [Option.toList, List.singleton_append, List.cons_append,
            List.cons.injEq] at h
          exact ih _ _ _ h.2
    · rw [if_neg hgo] at h
      exact short_list_split _ _ _ _ (messages_singleton_length _) h

/-- With the capability flag set, a run that starts with `emitCount = 0`
emits at least one message. -/
theorem messages_ne_nil (can : Int) (hcan : can ≠ 0) (script : List ResultSet)
    (timeInfo : TimeInfo) : messages (resultSetLoop can script 0 timeInfo) ≠ [] := by
  induction script generalizing timeInfo with
  | nil =>
    have : (resultSetBody noResultSet 0 timeInfo).emitted = some ⟨none, [], false⟩ := by
      rw [resultSetBody_emitted]
      rfl
    simp [resultSetLoop, messages_cons, this]
  | cons rs rest ih =>
    rw [resultSetLoop_cons, messages_cons]
    cases he : (resultSetBody rs 0 timeInfo).emitted with
    | some m0 => simp
    | none =>
      have hec := resultSetBody_emitCount rs 0 timeInfo
      rw [he] at hec
      simp only [if_true] at hec
      have hs : rs.moreResults = SQL_SUCCESS := by
        by_contra hne
        rw [resultSetBody_emitted] at he
        by_cases hc : rs.columns ≠ []
        · rw [if_pos hc] at he
          cases he
        · rw [if_neg hc, if_pos ⟨hne, rfl⟩] at he
          cases he
      rw [if_pos ⟨hcan, hs⟩, hec]
      simpa using ih _

theorem last_of_columns (can : Int) (hcan : can ≠ 0) (pre : List ResultSet) (rs : ResultSet)
    (post : List ResultSet) (hpre : ∀ p ∈ pre, p.moreResults = SQL_SUCCESS)
    (hrs : rs.moreResults ≠ SQL_SUCCESS) (hc : rs.columns ≠ []) (emitCount : Int)
    (timeInfo : TimeInfo) :
    ∃ m, (messages (resultSetLoop can (pre ++ rs :: post) emitCount timeInfo)).getLast? = some m
      ∧ m.hasMore = false := by
  induction pre generalizing emitCount timeInfo with
  | nil =>
    have hstop : ¬ (can ≠ 0 ∧ rs.moreResults = SQL_SUCCESS) := fun h => hrs h.2
    rw [List.nil_append, resultSetLoop_cons, if_neg hstop, messages_cons,
      resultSetBody_emitted, if_pos hc, if_neg hrs]
    exact ⟨_, rfl, rfl⟩
  | cons p pre ih =>
    have hp : p.moreResults = SQL_SUCCESS := hpre p (List.mem_cons_self _ _)
    obtain ⟨m, hm, hf⟩ := ih (fun q hq => hpre q (List.mem_cons_of_mem _ hq))
      (resultSetBody p emitCount timeInfo).emitCount (resultSetBody p emitCount timeInfo).timeInfo
    refine ⟨m, ?_, hf⟩
    rw [List.cons_append, resultSetLoop_cons, if_pos ⟨hcan, hp⟩, messages_cons,
      List.getLast?_append, hm]
    rfl

theorem last_of_first_emit (can : Int) (hcan : can ≠ 0) (pre : List ResultSet) (rs : ResultSet)
    (post : List ResultSet) (hpre : ∀ p ∈ pre, p.moreResults = SQL_SUCCESS)
    (hrs : rs.moreResults ≠ SQL_SUCCESS) (hc : ∀ p ∈ pre, p.columns = [])
    (timeInfo : TimeInfo) :
    ∃ m, (messages (resultSetLoop can (pre ++ rs :: post) 0 timeInfo)).getLast? = some m
      ∧ m.hasMore = false := by
  induction pre generalizing timeInfo with
  | nil =>
    have hstop : ¬ (can ≠ 0 ∧ rs.moreResults = SQL_SUCCESS) := fun h => hrs h.2
    rw [List.nil_append, resultSetLoop_cons, if_neg hstop, messages_cons,
      resultSetBody_emitted]
    by_cases hcol : rs.columns ≠ []
    · rw [if_pos hcol, if_neg hrs]
      exact ⟨_, rfl, rfl⟩
    · rw [if_neg hcol, if_pos ⟨hrs, rfl⟩]
      exact ⟨_, rfl, rfl⟩
  | cons p pre ih =>
    have hp : p.moreResults = SQL_SUCCESS := hpre p (List.mem_cons_self _ _)
    have hpc : ¬ p.columns ≠ [] := fun h => h (hc p (List.mem_cons_self _ _))
    have he : (resultSetBody p 0 timeInfo).emitted = none := by
      rw [resultSetBody_emitted, if_neg hpc, if_neg (fun h => h.1 hp)]
    have hec := resultSetBody_emitCount p 0 timeInfo
    rw [he] at hec
    simp only [if_true] at hec
    obtain ⟨m, hm, hf⟩ := ih (fun q hq => hpre q (List.mem_cons_of_mem _ hq))
      (fun q hq => hc q (List.mem_cons_of_mem _ hq)) (resultSetBody p 0 timeInfo).timeInfo
    refine ⟨m, ?_, hf⟩
    rw [List.cons_append, resultSetLoop_cons, if_pos ⟨hcan, hp⟩, messages_cons, he, hec]
    exact hm

/-! ## Fetch errors (C10) -/

theorem emitted_of_columns (rs : ResultSet) (emitCount : Int) (timeInfo : TimeInfo)
    (hcols : rs.columns ≠ []) :
    (resultSetBody rs emitCount timeInfo).emitted =
      some ⟨none, rowsOf (buildColumns rs.columns) (fetchedHead rs.fetches) timeInfo,
        if rs.moreResults = SQL_SUCCESS then true else false⟩ := by
  rw [resultSetBody_emitted, if_pos hcols, fetchLoop_rows, List.nil_append]

/-- C10: for every result set with columns and every script of fetch return
codes, the pass emits a message whose rows are exactly the rows of the
fetches that precede the first `SQL_ERROR` or `SQL_NO_DATA`, in fetch order
(a fetch with any other code, `SQL_SUCCESS_WITH_INFO` included, gives its
row); the fetches issued are those and the one that stops the loop, so none
follows the first `SQL_ERROR`; `SQLMoreResults` is still called, and the
result-set loop goes on exactly as its return code and the capability flag
say. -/
theorem C10_fetch_error_keeps_rows (can : Int) (rs : ResultSet) (rest : List ResultSet)
    (emitCount : Int) (timeInfo : TimeInfo) (hcols : rs.columns ≠ []) :
    (resultSetBody rs emitCount timeInfo).emitted =
      some ⟨none, rowsOf (buildColumns rs.columns) (fetchedHead rs.fetches) timeInfo,
        if rs.moreResults = SQL_SUCCESS then true else false⟩ ∧
    fetchCodes (resultSetBody rs emitCount timeInfo).calls =
      (fetchedHead rs.fetches).map (fun f => f.ret) ++ [stopCode rs.fetches] ∧
    (∀ f ∈ fetchedHead rs.fetches, f.ret ≠ SQL_ERROR ∧ f.ret ≠ SQL_NO_DATA) ∧
    fetchStops SQL_SUCCESS_WITH_INFO = false ∧
    Event.SQLMoreResults rs.moreResults ∈ (resultSetBody rs emitCount timeInfo).calls ∧
    resultSetLoop can (rs :: rest) emitCount timeInfo =
      resultSetBody rs emitCount timeInfo ::
        (if can ≠ 0 ∧ rs.moreResults = SQL_SUCCESS then
          resultSetLoop can rest (resultSetBody rs emitCount timeInfo).emitCount
            (resultSetBody rs emitCount timeInfo).timeInfo
         else []) := by
  refine ⟨?_, ?_, ?_, by decide, ?_, resultSetLoop_cons can rs rest emitCount timeInfo⟩
  · exact emitted_of_columns rs emitCount timeInfo hcols
  · rw [resultSetBody_calls, if_pos hcols]
    have hcons : fetchCodes (Event.SQLMoreResults rs.moreResults ::
        (if rs.moreResults ≠ SQL_SUCCESS then [Event.SQLFreeStmt, Event.SQLAllocHandleStmt]
         else [])) = [] := by
      split <;> rfl
    rw [fetchCodes_append, hcons,
      show ∀ l, fetchCodes (Event.SQLNumResultCols :: l) = fetchCodes l from fun l => rfl,
      fetchCodes_append, columnCalls_fetchCodes, fetchLoop_fetchCodes]
    simp
  · intro f hf
    have h := List.mem_takeWhile_imp hf
    simp only [fetchStops, Bool.not_eq_true', Bool.or_eq_false_iff, beq_eq_false_iff_ne,
      ne_eq] at h
    exact h
  · rw [resultSetBody_calls]
    simp

theorem C10_fetch_error_keeps_rows_witness :
    (resultSetBody brokenSet 0 []).emitted =
      some ⟨none, [[("a".toList, Value.String "x".toList)],
        [("a".toList, Value.String "y".toList)]], true⟩ ∧
    fetchCodes (resultSetBody brokenSet 0 []).calls =
      [SQL_SUCCESS, SQL_SUCCESS_WITH_INFO, SQL_ERROR] :=
  ⟨(C10_fetch_error_keeps_rows 1 brokenSet [] 0 [] (by decide)).1,
   (C10_fetch_error_keeps_rows 1 brokenSet [] 0 [] (by decide)).2.1⟩

/-! ## Several result sets (C5) -/

theorem fetchedHead_of_succeed (fetches : List Fetch)
    (h : ∀ f ∈ fetches.takeWhile (fun f => decide (f.ret ≠ SQL_NO_DATA)),
      SQL_SUCCEEDED f.ret = true) :
    fetchedHead fetches = fetches.takeWhile fun f => decide (f.ret ≠ SQL_NO_DATA) := by
  induction fetches with
  | nil => rfl
  | cons f fs ih =>
    by_cases hs : f.ret = SQL_NO_DATA
    · rw [fetchedHead_stop _ _ (fetchStops_of_no_data hs),
        List.takeWhile_cons_of_neg (by simpa using hs)]
    · have htw : List.takeWhile (fun f => decide (f.ret ≠ SQL_NO_DATA)) (f :: fs) =
          f :: List.takeWhile (fun f => decide (f.ret ≠ SQL_NO_DATA)) fs :=
        List.takeWhile_cons_of_pos (by simpa using hs)
      rw [htw] at h ⊢
      have hf := h f (List.mem_cons_self _ _)
      have hgo : fetchStops f.ret = false := by
        simp only [SQL_SUCCEEDED, Bool.or_eq_true, beq_iff_eq] at hf
        rcases hf with hf | hf <;> rw [hf] <;> decide
      rw [fetchedHead_go _ _ hgo, ih (fun g hg => h g (List.mem_cons_of_mem _ hg))]

theorem emitted_of_succeed (rs : ResultSet) (emitCount : Int) (timeInfo : TimeInfo)
    (hcols : rs.columns ≠ []) (hfetch : fetchesSucceed rs) :
    ∃ m, (resultSetBody rs emitCount timeInfo).emitted = some m ∧
      m.rows.length = rowCount rs ∧
      m.hasMore = (if rs.moreResults = SQL_SUCCESS then true else false) := by
  refine ⟨_, (emitted_of_columns rs emitCount timeInfo hcols), ?_, rfl⟩
  simp only [rowsOf_length, rowCount, fetchedHead_of_succeed rs.fetches hfetch]

theorem loop_of_succeed (can : Int) (hcan : can ≠ 0) (init : List ResultSet) (last : ResultSet)
    (post : List ResultSet)
    (hcols : ∀ rs ∈ init ++ [last], rs.columns ≠ [])
    (hfetch : ∀ rs ∈ init ++ [last], fetchesSucceed rs)
    (hmore : ∀ rs ∈ init, rs.moreResults = SQL_SUCCESS)
    (hlast : last.moreResults ≠ SQL_SUCCESS) (emitCount : Int) (timeInfo : TimeInfo) :
    (messages (resultSetLoop can (init ++ last :: post) emitCount timeInfo)).map
        (fun m => (m.rows.length, m.hasMore)) =
      init.map (fun rs => (rowCount rs, true)) ++ [(rowCount last, false)] := by
  induction init generalizing emitCount timeInfo with
  | nil =>
    obtain ⟨m, hm, hr, hh⟩ := emitted_of_succeed last emitCount timeInfo
      (hcols last (by simp)) (hfetch last (by simp))
    have hstop : ¬ (can ≠ 0 ∧ last.moreResults = SQL_SUCCESS) := fun h => hlast h.2
    rw [if_neg hlast] at hh
    rw [List.nil_append, resultSetLoop_cons, if_neg hstop, messages_cons, hm]
    simp [messages, hr, hh]
  | cons rs init ih =>
    obtain ⟨m, hm, hr, hh⟩ := emitted_of_succeed rs emitCount timeInfo
      (hcols rs (by simp)) (hfetch rs (by simp))
    have hrs : rs.moreResults = SQL_SUCCESS := hmore rs (List.mem_cons_self _ _)
    rw [if_pos hrs] at hh
    rw [List.cons_append, resultSetLoop_cons, if_pos ⟨hcan, hrs⟩, messages_cons, hm]
    have := ih (fun q hq => hcols q (by simp at hq ⊢; tauto))
      (fun q hq => hfetch q (by simp at hq ⊢; tauto))
      (fun q hq => hmore q (List.mem_cons_of_mem _ hq))
      (resultSetBody rs emitCount timeInfo).emitCount (resultSetBody rs emitCount timeInfo).timeInfo
    simp only [Option.toList, List.singleton_append, List.map_cons, List.nil_append, this, hr,
      hh, List.cons_append]

/-- With `canHaveMoreResults` set, take a query whose first `n ≥ 1` result
sets all have columns and fetches that succeed (`SQL_SUCCESS` or
`SQL_SUCCESS_WITH_INFO`) until no-more-data, and whose `SQLMoreResults`
returns exactly `SQL_SUCCESS` after each of them but the `n`-th. It emits
exactly `n` messages, whatever else the driver would have had to give; the
`i`-th carries as many rows as the `i`-th result set has, the first `n - 1`
have `hasMore = true` and the last has `hasMore = false`. -/
theorem multi_result_ordering (req : eio_req) (can : Int) (init : List ResultSet)
    (last : ResultSet) (post : List ResultSet) (hcan : can ≠ 0)
    (hcols : ∀ rs ∈ init ++ [last], rs.columns ≠ [])
    (hfetch : ∀ rs ∈ init ++ [last], fetchesSucceed rs)
    (hmore : ∀ rs ∈ init, rs.moreResults = SQL_SUCCESS)
    (hlast : last.moreResults ≠ SQL_SUCCESS) :
    (messages (EIO_AfterQuery req can (init ++ last :: post))).length = init.length + 1 ∧
    (messages (EIO_AfterQuery req can (init ++ last :: post))).map (fun m => m.rows.length) =
      (init ++ [last]).map rowCount ∧
    (messages (EIO_AfterQuery req can (init ++ last :: post))).map (fun m => m.hasMore) =
      List.replicate init.length true ++ [false] := by
  have h := loop_of_succeed can hcan init last post hcols hfetch hmore hlast 0 []
  have hl := congrArg List.length h
  have h1 := congrArg (List.map Prod.fst) h
  have h2 := congrArg (List.map Prod.snd) h
  simp only [List.map_map, List.map_append, List.map_cons, List.map_nil, List.length_map,
    List.length_append, List.length_singleton] at hl h1 h2
  refine ⟨hl, ?_, ?_⟩
  · simpa [Function.comp_def] using h1
  · have hrep : List.map (Prod.snd ∘ fun rs => (rowCount rs, true)) init =
        List.replicate init.length true := by
      rw [List.eq_replicate_iff]
      simp
    rw [hrep] at h2
    simpa [Function.comp_def] using h2

/-- The query of three result sets with 2, 0 and 1 rows gives three messages
with 2, 0 and 1 rows, the last alone with `hasMore = false`. -/
theorem multi_result_ordering_threeSets :
    (messages (EIO_AfterQuery eio_custom 1 threeSets)).length = 3 ∧
    (messages (EIO_AfterQuery eio_custom 1 threeSets)).map (fun m => m.rows.length) = [2, 0, 1] ∧
    (messages (EIO_AfterQuery eio_custom 1 threeSets)).map (fun m => m.hasMore) =
      [true, true, false] :=
  multi_result_ordering eio_custom 1
    [⟨[⟨"a".toList, 1, SQL_INTEGER⟩],
        [⟨SQL_SUCCESS, [⟨SQL_SUCCESS, 1, "1".toList⟩]⟩,
         ⟨SQL_SUCCESS, [⟨SQL_SUCCESS, 1, "2".toList⟩]⟩, ⟨SQL_NO_DATA, []⟩], SQL_SUCCESS⟩,
     ⟨[⟨"b".toList, 1, SQL_BIT⟩], [⟨SQL_NO_DATA, []⟩], SQL_SUCCESS⟩]
    ⟨[⟨"c".toList, 1, SQL_VARCHAR⟩],
      [⟨SQL_SUCCESS, [⟨SQL_SUCCESS, 1, "x".toList⟩]⟩, ⟨SQL_NO_DATA, []⟩], SQL_NO_DATA⟩
    [] (by decide) (by decide) (by decide) (by decide) (by decide)

/-- C5 at the failing input: a connection with `canHaveMoreResults` set and a
query with two result sets that have a column and a row each, where
`SQLMoreResults` returns `SQL_SUCCESS_WITH_INFO` after the first. The loop
makes one pass: it emits the first result set with `hasMore = false`, frees
the statement, and never asks for the second result set. -/
theorem C5_advance_with_info :
    SQL_SUCCEEDED SQL_SUCCESS_WITH_INFO = true ∧
    (EIO_AfterQuery eio_custom 1 infoSets).length = 1 ∧
    messages (EIO_AfterQuery eio_custom 1 infoSets) =
      [⟨none, [[("a".toList, Value.Number (.fin false 1 10 0))]], false⟩] ∧
    events (EIO_AfterQuery eio_custom 1 infoSets) =
      [Event.SQLNumResultCols, Event.SQLColAttribute 1, Event.SQLColAttribute 1,
       Event.SQLFetch SQL_SUCCESS, Event.SQLGetData 1, Event.SQLFetch SQL_NO_DATA,
       Event.SQLMoreResults SQL_SUCCESS_WITH_INFO, Event.SQLFreeStmt,
       Event.SQLAllocHandleStmt,
       Event.Emit ⟨none, [[("a".toList, Value.Number (.fin false 1 10 0))]], false⟩] := by
  decide

/-! ## The emit rule (C4) -/

/-- The emit rule of one pass, as the code has it: a message is emitted
exactly when the result set has columns, or `SQLMoreResults` did not return
`SQL_SUCCESS` and the counter `emitCount` is `0`; its `hasMore` is set exactly
when `SQLMoreResults` returned `SQL_SUCCESS`. -/
theorem emit_rule (rs : ResultSet) (emitCount : Int) (timeInfo : TimeInfo) :
    ((resultSetBody rs emitCount timeInfo).emitted ≠ none ↔
      ((resultSetBody rs emitCount timeInfo).colCount > 0 ∨
        ((resultSetBody rs emitCount timeInfo).ret ≠ SQL_SUCCESS ∧ emitCount = 0))) ∧
    (∀ m, (resultSetBody rs emitCount timeInfo).emitted = some m →
      (m.hasMore = true ↔ (resultSetBody rs emitCount timeInfo).ret = SQL_SUCCESS)) := by
  refine ⟨?_, ?_⟩
  · rw [resultSetBody_colCount, resultSetBody_ret, colCount_pos, resultSetBody_emitted]
    by_cases hc : rs.columns ≠ []
    · simp [hc]
    · rw [if_neg hc]
      by_cases hm : rs.moreResults ≠ SQL_SUCCESS ∧ emitCount = 0
      · simp [hm, hc]
      · rw [if_neg hm]
        simp only [ne_eq, not_true_eq_false, false_iff, not_or]
        exact ⟨hc, hm⟩
  · intro m hm
    rw [resultSetBody_ret]
    exact (emitted_hasMore rs emitCount timeInfo m hm).1

theorem toShort_succ (e : Int) (n : Nat) :
    toShort (toShort (e + 1) + (n : Int)) = toShort (e + ((n + 1 : Nat) : Int)) := by
  unfold toShort
  push_cast
  omega

theorem oneColumnSet_body (emitCount : Int) (timeInfo : TimeInfo) :
    (resultSetBody oneColumnSet emitCount timeInfo).emitted = some ⟨none, [], true⟩ ∧
    (resultSetBody oneColumnSet emitCount timeInfo).emitCount = toShort (emitCount + 1) ∧
    (resultSetBody oneColumnSet emitCount timeInfo).timeInfo = timeInfo := by
  refine ⟨rfl, rfl, rfl⟩

/-- A run over `n` result sets with a column: `n` passes that emit, after
which the counter has wrapped to `toShort (emitCount + n)`. -/
theorem loop_replicate (n : Nat) (rest : List ResultSet) (emitCount : Int) (timeInfo : TimeInfo)
    (hlo : -32768 ≤ emitCount) (hhi : emitCount < 32768) :
    ∃ pre : List Iteration, pre.length = n ∧
      (∀ it ∈ pre, it.emitted = some ⟨none, [], true⟩) ∧
      resultSetLoop 1 (List.replicate n oneColumnSet ++ rest) emitCount timeInfo =
        pre ++ resultSetLoop 1 rest (toShort (emitCount + (n : Int))) timeInfo := by
  induction n generalizing emitCount with
  | zero =>
    refine ⟨[], rfl, by simp, ?_⟩
    have h0 : toShort (emitCount + ((0 : Nat) : Int)) = emitCount := by
      unfold toShort
      push_cast
      omega
    rw [h0]
    rfl
  | succ n ih =>
    obtain ⟨hb1, hb2, hb3⟩ := oneColumnSet_body emitCount timeInfo
    obtain ⟨pre, hlen, hall, hloop⟩ := ih (toShort (emitCount + 1))
      (by unfold toShort; omega) (by unfold toShort; omega)
    refine ⟨resultSetBody oneColumnSet emitCount timeInfo :: pre, by simp [hlen], ?_, ?_⟩
    · intro it hit
      rcases List.mem_cons.1 hit with h | h
      · rw [h]; exact hb1
      · exact hall it h
    · rw [List.replicate_succ, List.cons_append, resultSetLoop_cons,
        if_pos ⟨by decide, rfl⟩, hb2, hb3, hloop, toShort_succ]
      rfl

theorem messages_length_of_all (its : List Iteration) (m : Message)
    (h : ∀ it ∈ its, it.emitted = some m) : (messages its).length = its.length := by
  induction its with
  | nil => rfl
  | cons it its ih =>
    rw [messages_cons, h it (List.mem_cons_self _ _), List.length_append,
      ih (fun x hx => h x (List.mem_cons_of_mem _ hx))]
    simp [Nat.add_comm]

/-- C4 at the failing input: a query with 65536 result sets that have a column
and a last result set without columns. Each of the first 65536 passes emits
a message; the 16-bit counter `emitCount` is then back at `0`, and the last
pass, whose result set has no column, emits a further message. -/
theorem C4_emit_after_wrap :
    ∃ (pre : List Iteration) (last : Iteration),
      EIO_AfterQuery eio_custom 1 wrapScript = pre ++ [last] ∧
      pre.length = 65536 ∧
      (∀ it ∈ pre, it.emitted = some ⟨none, [], true⟩) ∧
      (messages pre).length = 65536 ∧
      last.colCount = 0 ∧ last.ret = SQL_NO_DATA ∧
      last.emitted = some ⟨none, [], false⟩ := by
  obtain ⟨pre, hlen, hall, hloop⟩ :=
    loop_replicate 65536 [noColumnEnd] 0 [] (by decide) (by decide)
  refine ⟨pre, resultSetBody noColumnEnd 0 [], ?_, hlen, hall, ?_, rfl, rfl, rfl⟩
  · unfold EIO_AfterQuery wrapScript
    rw [hloop]
    rfl
  · rw [messages_length_of_all pre _ hall, hlen]

theorem singleton_eq_append {α : Type} (x : α) (pre : List α) (y : α) (post : List α)
    (h : [x] = pre ++ y :: post) : pre = [] ∧ x = y := by
  cases pre with
  | nil =>
    simp only [List.nil_append, List.cons.injEq] at h
    exact ⟨rfl, h.1⟩
  | cons p pre' =>
    simp only [List.cons_append, List.cons.injEq] at h
    have h2 := h.2
    cases pre' <;> cases h2

theorem toShort_toShort_succ (c : Int) : toShort (toShort c + 1) = toShort (c + 1) := by
  unfold toShort
  omega

/-- The emit rule over a whole run: the pass that follows the passes `pre`
emits exactly when its result set has columns, or `SQLMoreResults` did not
return `SQL_SUCCESS` and the number of messages emitted by `pre`, counted in
16 bits, is `0`. -/
theorem emit_rule_loop (can : Int) (script : List ResultSet) (emitCount : Int)
    (timeInfo : TimeInfo) (c : Nat) (hc : emitCount = toShort c)
    (pre : List Iteration) (it : Iteration) (post : List Iteration)
    (h : resultSetLoop can script emitCount timeInfo = pre ++ it :: post) :
    (it.emitted ≠ none ↔
      (it.colCount > 0 ∨
        (it.ret ≠ SQL_SUCCESS ∧ toShort ((c + (messages pre).length : Nat) : Int) = 0))) ∧
    (∀ m, it.emitted = some m → (m.hasMore = true ↔ it.ret = SQL_SUCCESS)) := by
  induction script generalizing emitCount timeInfo c pre with
  | nil =>
    obtain ⟨hpre, hit⟩ := singleton_eq_append _ _ _ _ h
    subst hpre
    rw [← hit]
    have := emit_rule noResultSet emitCount timeInfo
    simpa [messages, hc] using this
  | cons rs rest ih =>
    rw [resultSetLoop_cons] at h
    cases pre with
    | nil =>
      simp only [List.nil_append, List.cons.injEq] at h
      rw [← h.1]
      have := emit_rule rs emitCount timeInfo
      simpa [messages, hc] using this
    | cons p pre' =>
      simp only [List.cons_append, List.cons.injEq] at h
      obtain ⟨hp, ht⟩ := h
      by_cases hgo : can ≠ 0 ∧ rs.moreResults = SQL_SUCCESS
      · rw [if_pos hgo] at ht
        have hec := resultSetBody_emitCount rs emitCount timeInfo
        rw [messages_cons, ← hp]
        cases he : (resultSetBody rs emitCount timeInfo).emitted with
        | none =>
          rw [he] at hec
          simp only [if_true] at hec
          have := ih _ _ c (by rw [hec, hc]) pre' ht
          simpa using this
        | some m0 =>
          rw [he] at hec
          simp only [reduceCtorEq, if_false] at hec
          have := ih _ _ (c + 1) (by rw [hec, hc]; push_cast; exact toShort_toShort_succ _)
            pre' ht
          simpa [Nat.add_assoc, Nat.add_comm 1] using this
      · rw [if_neg hgo] at ht
        cases pre' <;> cases ht

/-- As long as fewer than 65536 messages were emitted before it, a pass of a
run emits exactly when its result set has columns, or `SQLMoreResults` did
not return `SQL_SUCCESS` and no message was emitted before. -/
theorem emit_rule_run (req : eio_req) (can : Int) (script : List ResultSet)
    (pre : List Iteration) (it : Iteration) (post : List Iteration)
    (h : EIO_AfterQuery req can script = pre ++ it :: post)
    (hlt : (messages pre).length < 65536) :
    (it.emitted ≠ none ↔
      (it.colCount > 0 ∨ (it.ret ≠ SQL_SUCCESS ∧ messages pre = []))) ∧
    (∀ m, it.emitted = some m → (m.hasMore = true ↔ it.ret = SQL_SUCCESS)) := by
  have := emit_rule_loop can script 0 [] 0 (by decide) pre it post h
  refine ⟨?_, this.2⟩
  rw [this.1]
  have hz : toShort ((0 + (messages pre).length : Nat) : Int) = 0 ↔ messages pre = [] := by
    rw [← List.length_eq_zero]
    unfold toShort
    push_cast
    omega
  rw [hz]

/-! ## Message termination (C1) -/

theorem resultSetLoop_ne_nil (can : Int) (script : List ResultSet) (emitCount : Int)
    (timeInfo : TimeInfo) : resultSetLoop can script emitCount timeInfo ≠ [] := by
  cases script with
  | nil => simp [resultSetLoop]
  | cons rs rest => rw [resultSetLoop_cons]; simp

theorem messages_append (a b : List Iteration) : messages (a ++ b) = messages a ++ messages b := by
  simp [messages, List.filterMap_append]

/-- The messages of the passes before the last pass all have `hasMore` set. -/
theorem nonfinal_hasMore (can : Int) (script : List ResultSet) (emitCount : Int)
    (timeInfo : TimeInfo) (pre : List Iteration) (last : Iteration)
    (h : resultSetLoop can script emitCount timeInfo = pre ++ [last]) :
    ∀ m ∈ messages pre, m.hasMore = true := by
  induction script generalizing emitCount timeInfo pre with
  | nil =>
    obtain ⟨hpre, _⟩ := singleton_eq_append _ _ _ _ h
    subst hpre
    simp [messages]
  | cons rs rest ih =>
    rw [resultSetLoop_cons] at h
    cases pre with
    | nil => simp [messages]
    | cons p pre' =>
      simp only [List.cons_append, List.cons.injEq] at h
      obtain ⟨hp, ht⟩ := h
      by_cases hgo : can ≠ 0 ∧ rs.moreResults = SQL_SUCCESS
      · rw [if_pos hgo] at ht
        intro m hm
        rw [messages_cons, List.mem_append] at hm
        rcases hm with hm | hm
        · rw [← hp] at hm
          cases he : (resultSetBody rs emitCount timeInfo).emitted with
          | none => rw [he] at hm; simp at hm
          | some m0 =>
            rw [he] at hm
            simp only [Option.toList, List.mem_singleton] at hm
            rw [hm]
            exact ((emitted_hasMore rs emitCount timeInfo m0 he).1).2 hgo.2
        · exact ih _ _ pre' ht m hm
      · rw [if_neg hgo] at ht
        cases pre' <;> cases ht

/-- With the capability flag set, the loop ends on a pass whose
`SQLMoreResults` did not return `SQL_SUCCESS`. -/
theorem final_ret (can : Int) (hcan : can ≠ 0) (script : List ResultSet) (emitCount : Int)
    (timeInfo : TimeInfo) (pre : List Iteration) (last : Iteration)
    (h : resultSetLoop can script emitCount timeInfo = pre ++ [last]) :
    last.ret ≠ SQL_SUCCESS := by
  induction script generalizing emitCount timeInfo pre with
  | nil =>
    obtain ⟨_, hit⟩ := singleton_eq_append _ _ _ _ h
    rw [← hit, resultSetBody_ret]
    decide
  | cons rs rest ih =>
    rw [resultSetLoop_cons] at h
    by_cases hgo : can ≠ 0 ∧ rs.moreResults = SQL_SUCCESS
    · rw [if_pos hgo] at h
      cases pre with
      | nil =>
        simp only [List.nil_append, List.cons.injEq] at h
        exact absurd h.2 (resultSetLoop_ne_nil _ _ _ _)
      | cons p pre' =>
        simp only [List.cons_append, List.cons.injEq] at h
        exact ih _ _ pre' h.2
    · rw [if_neg hgo] at h
      obtain ⟨_, hit⟩ := singleton_eq_append _ _ _ _ h
      rw [← hit, resultSetBody_ret]
      exact fun hs => hgo ⟨hcan, hs⟩

/-- The last message of a run has `hasMore = false` exactly when the pass that
ends the loop did not get `SQL_SUCCESS` from `SQLMoreResults` and emits. -/
theorem last_hasMore_false_iff (can : Int) (script : List ResultSet) (pre : List Iteration)
    (last : Iteration) (h : resultSetLoop can script 0 [] = pre ++ [last]) :
    (∃ m, (messages (pre ++ [last])).getLast? = some m ∧ m.hasMore = false) ↔
      (last.ret ≠ SQL_SUCCESS ∧
        (last.colCount > 0 ∨ toShort ((messages pre).length : Int) = 0)) := by
  have hrule := emit_rule_loop can script 0 [] 0 (by decide) pre last [] h
  have hpre := nonfinal_hasMore can script 0 [] pre last h
  simp only [Nat.zero_add] at hrule
  rw [messages_append, messages_cons]
  have hnil : messages ([] : List Iteration) = [] := rfl
  rw [hnil, List.append_nil]
  constructor
  · rintro ⟨m, hm, hf⟩
    cases he : last.emitted with
    | none =>
      rw [he] at hm
      simp only [Option.toList, List.append_nil] at hm
      have := hpre m (List.mem_of_getLast?_eq_some hm)
      rw [this] at hf
      cases hf
    | some m0 =>
      rw [he] at hm
      simp only [Option.toList, List.getLast?_append, List.getLast?_singleton, Option.or_some,
        Option.some.injEq] at hm
      subst hm
      have hret : last.ret ≠ SQL_SUCCESS := by
        intro hs
        rw [(hrule.2 m0 he).2 hs] at hf
        cases hf
      have hem : last.emitted ≠ none := by rw [he]; exact fun e => Option.noConfusion e
      rcases hrule.1.1 hem with hc | hc
      · exact ⟨hret, Or.inl hc⟩
      · exact ⟨hret, Or.inr hc.2⟩
  · rintro ⟨hret, hc⟩
    have hem : last.emitted ≠ none := by
      apply hrule.1.2
      rcases hc with hc | hc
      · exact Or.inl hc
      · exact Or.inr ⟨hret, hc⟩
    cases he : last.emitted with
    | none => exact absurd he hem
    | some m0 =>
      refine ⟨m0, by simp [Option.toList], ?_⟩
      cases hb : m0.hasMore with
      | false => rfl
      | true => exact absurd ((hrule.2 m0 he).1 hb) hret

/-- The run emits nothing exactly when the capability flag is clear and the
first result set has no columns and is followed by a further one. -/
theorem messages_eq_nil_iff (can : Int) (script : List ResultSet) :
    messages (resultSetLoop can script 0 []) = [] ↔
      (can = 0 ∧ ∃ rs rest, script = rs :: rest ∧ rs.columns = [] ∧
        rs.moreResults = SQL_SUCCESS) := by
  constructor
  · intro h
    by_cases hcan : can = 0
    · refine ⟨hcan, ?_⟩
      cases script with
      | nil =>
        have he : (resultSetBody noResultSet 0 []).emitted = some ⟨none, [], false⟩ := by
          rw [resultSetBody_emitted]
          rfl
        simp [resultSetLoop, messages_cons, he] at h
      | cons rs rest =>
        refine ⟨rs, rest, rfl, ?_⟩
        have hstop : ¬ (can ≠ 0 ∧ rs.moreResults = SQL_SUCCESS) := fun hg => hg.1 hcan
        rw [resultSetLoop_cons, if_neg hstop, messages_cons, resultSetBody_emitted] at h
        by_cases hc : rs.columns ≠ []
        · rw [if_pos hc] at h
          simp at h
        · rw [if_neg hc] at h
          by_cases hm : rs.moreResults ≠ SQL_SUCCESS ∧ (0 : Int) = 0
          · rw [if_pos hm] at h
            simp at h
          · refine ⟨not_not.1 hc, ?_⟩
            by_contra hne
            exact hm ⟨hne, rfl⟩
    · exact absurd h (messages_ne_nil can hcan script [])
  · rintro ⟨hcan, rs, rest, rfl, hc, hm⟩
    have hstop : ¬ (can ≠ 0 ∧ rs.moreResults = SQL_SUCCESS) := fun hg => hg.1 hcan
    have hcn : ¬ rs.columns ≠ [] := fun hne => hne hc
    have hmn : ¬ (rs.moreResults ≠ SQL_SUCCESS ∧ (0 : Int) = 0) := fun hg => hg.1 hm
    rw [resultSetLoop_cons, if_neg hstop, messages_cons, resultSetBody_emitted, if_neg hcn,
      if_neg hmn]
    rfl

/-- Whatever the capability flag, a first pass whose `SQLMoreResults` does not
return `SQL_SUCCESS` gives exactly one message, with `hasMore = false`. -/
theorem first_pass_stops (can : Int) (rs : ResultSet) (rest : List ResultSet)
    (hm : rs.moreResults ≠ SQL_SUCCESS) :
    ∃ m, messages (resultSetLoop can (rs :: rest) 0 []) = [m] ∧ m.hasMore = false := by
  have hstop : ¬ (can ≠ 0 ∧ rs.moreResults = SQL_SUCCESS) := fun hg => hm hg.2
  rw [resultSetLoop_cons, if_neg hstop, messages_cons, resultSetBody_emitted]
  by_cases hc : rs.columns ≠ []
  · rw [if_pos hc, if_neg hm]
    exact ⟨_, rfl, rfl⟩
  · rw [if_neg hc, if_pos ⟨hm, rfl⟩]
    exact ⟨_, rfl, rfl⟩

/-- C1, as stated, fails. With the capability flag clear and a `SQLMoreResults`
that returns `SQL_SUCCESS`, a result set with a column gives one message, with
`hasMore = true`, and a result set without columns gives no message at all.
With the flag set, a result set with a column followed by a last result set
without columns gives one message, with `hasMore = true`. -/
theorem C1_counterexample :
    messages (EIO_AfterQuery eio_custom 0 [⟨[⟨"a".toList, 1, SQL_INTEGER⟩], [], SQL_SUCCESS⟩])
      = [⟨none, [], true⟩] ∧
    messages (EIO_AfterQuery eio_custom 0 [⟨[], [], SQL_SUCCESS⟩]) = [] ∧
    messages (EIO_AfterQuery eio_custom 1
      [⟨[⟨"a".toList, 1, SQL_INTEGER⟩], [], SQL_SUCCESS⟩, ⟨[], [], SQL_NO_DATA⟩])
      = [⟨none, [], true⟩] := by
  decide

/-- C1, amended: for every query, every value of the capability flag and every
finite driver script, a message with `hasMore = false` is followed by no other
message, so no message before the last has `hasMore = false`. The sequence of
messages is empty only when the flag is clear and the first result set has no
columns and its `SQLMoreResults` returns `SQL_SUCCESS`; in every other case
it is non-empty. Every run has a pass that ends the loop, and with the flag
set its `SQLMoreResults` did not return `SQL_SUCCESS`. As long as fewer than
65536 messages were emitted before that pass, the last message has
`hasMore = false` exactly when in that pass `SQLMoreResults` did not return
`SQL_SUCCESS` and the result set has columns or no message was emitted
before. In particular, for every flag value, an empty script or a first
`SQLMoreResults` that does not return `SQL_SUCCESS` gives exactly one message,
with `hasMore = false`; and with the flag set the last message has
`hasMore = false` when the result set at which `SQLMoreResults` first fails to
return `SQL_SUCCESS` has columns, or no result set before it has. -/
theorem C1_message_termination (req : eio_req) (can : Int) (script : List ResultSet) :
    (∀ pre m post, messages (EIO_AfterQuery req can script) = pre ++ m :: post →
      m.hasMore = false → post = []) ∧
    (messages (EIO_AfterQuery req can script) = [] ↔
      (can = 0 ∧ ∃ rs rest, script = rs :: rest ∧ rs.columns = [] ∧
        rs.moreResults = SQL_SUCCESS)) ∧
    EIO_AfterQuery req can script ≠ [] ∧
    (∀ pre last, EIO_AfterQuery req can script = pre ++ [last] →
      (can ≠ 0 → last.ret ≠ SQL_SUCCESS) ∧
      ((messages pre).length < 65536 →
        ((∃ m, (messages (EIO_AfterQuery req can script)).getLast? = some m ∧
            m.hasMore = false) ↔
          (last.ret ≠ SQL_SUCCESS ∧ (last.colCount > 0 ∨ messages pre = []))))) ∧
    (script = [] →
      ∃ m, messages (EIO_AfterQuery req can script) = [m] ∧ m.hasMore = false) ∧
    (∀ rs rest, script = rs :: rest → rs.moreResults ≠ SQL_SUCCESS →
      ∃ m, messages (EIO_AfterQuery req can script) = [m] ∧ m.hasMore = false) ∧
    (can ≠ 0 → ∀ pre rs post, script = pre ++ rs :: post →
      (∀ p ∈ pre, p.moreResults = SQL_SUCCESS) → rs.moreResults ≠ SQL_SUCCESS →
      (rs.columns ≠ [] ∨ ∀ p ∈ pre, p.columns = []) →
      ∃ m, (messages (EIO_AfterQuery req can script)).getLast? = some m ∧ m.hasMore = false) := by
  refine ⟨?_, ?_, ?_, ?_, ?_, ?_, ?_⟩
  · intro pre m post h hm
    exact hasMore_false_is_last can script 0 [] pre m post h hm
  · exact messages_eq_nil_iff can script
  · exact resultSetLoop_ne_nil can script 0 []
  · intro pre last hl
    refine ⟨fun hcan => final_ret can hcan script 0 [] pre last hl, ?_⟩
    intro hlt
    have hiff := last_hasMore_false_iff can script pre last hl
    have hz : toShort ((messages pre).length : Int) = 0 ↔ messages pre = [] := by
      rw [← List.length_eq_zero]
      unfold toShort
      omega
    rw [hz] at hiff
    unfold EIO_AfterQuery at hl ⊢
    rw [hl]
    exact hiff
  · intro hs
    subst hs
    exact ⟨⟨none, [], false⟩, rfl, rfl⟩
  · intro rs rest hs hm
    subst hs
    exact first_pass_stops can rs rest hm
  · intro hcan pre rs post hs hpre hrs hcol
    subst hs
    rcases hcol with hcol | hcol
    · exact last_of_columns can hcan pre rs post hpre hrs hcol 0 []
    · exact last_of_first_emit can hcan pre rs post hpre hrs hcol []

theorem C1_message_termination_witness :
    ([] : List Message) = [] ∧
    (resultSetBody noColumnEnd 0 []).ret ≠ SQL_SUCCESS ∧
    (∃ m, (messages (EIO_AfterQuery eio_custom 0 [noColumnEnd])).getLast? = some m ∧
      m.hasMore = false) ∧
    (∃ m, messages (EIO_AfterQuery eio_custom 0 []) = [m] ∧ m.hasMore = false) ∧
    (∃ m, messages (EIO_AfterQuery eio_custom 0 [noColumnEnd]) = [m] ∧ m.hasMore = false) ∧
    ∃ m, (messages (EIO_AfterQuery eio_custom 1 threeSets)).getLast? = some m ∧
      m.hasMore = false :=
  ⟨(C1_message_termination eio_custom 1 threeSets).1
      [⟨none, [[("a".toList, Value.Number (.fin false 1 10 0))],
        [("a".toList, Value.Number (.fin false 2 10 0))]], true⟩, ⟨none, [], true⟩]
      ⟨none, [[("c".toList, Value.String "x".toList)]], false⟩ [] (by decide) rfl,
   ((C1_message_termination eio_custom 1 [noColumnEnd]).2.2.2.1 []
      (resultSetBody noColumnEnd 0 []) rfl).1 (by decide),
   (((C1_message_termination eio_custom 0 [noColumnEnd]).2.2.2.1 []
      (resultSetBody noColumnEnd 0 []) rfl).2 (by decide)).2 (by decide),
   (C1_message_termination eio_custom 0 []).2.2.2.2.1 rfl,
   (C1_message_termination eio_custom 0 [noColumnEnd]).2.2.2.2.2.1 noColumnEnd [] rfl
      (by decide),
   (C1_message_termination eio_custom 1 threeSets).2.2.2.2.2.2 (by decide)
      [⟨[⟨"a".toList, 1, SQL_INTEGER⟩],
        [⟨SQL_SUCCESS, [⟨SQL_SUCCESS, 1, "1".toList⟩]⟩,
         ⟨SQL_SUCCESS, [⟨SQL_SUCCESS, 1, "2".toList⟩]⟩, ⟨SQL_NO_DATA, []⟩], SQL_SUCCESS⟩,
       ⟨[⟨"b".toList, 1, SQL_BIT⟩], [⟨SQL_NO_DATA, []⟩], SQL_SUCCESS⟩]
      ⟨[⟨"c".toList, 1, SQL_VARCHAR⟩],
        [⟨SQL_SUCCESS, [⟨SQL_SUCCESS, 1, "x".toList⟩]⟩, ⟨SQL_NO_DATA, []⟩], SQL_NO_DATA⟩
      [] rfl (by decide) (by decide) (Or.inl (by decide))⟩

/-! ## A failed execute (C2) -/

/-- Every message of `EIO_AfterQuery` has a null error, whatever
`req->result` holds, and the first thing `EIO_AfterQuery` does is ask for the
column count. -/
theorem EIO_AfterQuery_ignores_result (req : eio_req) (can : Int) (script : List ResultSet) :
    EIO_AfterQuery req can script = EIO_AfterQuery eio_custom can script ∧
    (events (EIO_AfterQuery req can script)).head? = some Event.SQLNumResultCols ∧
    ∀ pre it post, EIO_AfterQuery req can script = pre ++ it :: post →
      ∀ m, it.emitted = some m → m.error = none := by
  refine ⟨rfl, ?_, ?_⟩
  · unfold EIO_AfterQuery
    cases script with
    | nil => simp [resultSetLoop, events, resultSetBody_calls]
    | cons rs rest => simp [resultSetLoop_cons, events, resultSetBody_calls]
  · unfold EIO_AfterQuery
    generalize (0 : Int) = e
    generalize ([] : TimeInfo) = ti
    intro pre it post h m hm
    induction script generalizing e ti pre with
    | nil =>
      obtain ⟨hpre, hit⟩ := singleton_eq_append _ _ _ _ h
      rw [← hit] at hm
      exact (emitted_hasMore _ _ _ m hm).2
    | cons rs rest ih =>
      rw [resultSetLoop_cons] at h
      cases pre with
      | nil =>
        simp only [List.nil_append, List.cons.injEq] at h
        rw [← h.1] at hm
        exact (emitted_hasMore _ _ _ m hm).2
      | cons p pre' =>
        simp only [List.cons_append, List.cons.injEq] at h
        by_cases hgo : can ≠ 0 ∧ rs.moreResults = SQL_SUCCESS
        · rw [if_pos hgo] at h
          exact ih _ _ pre' h.2
        · rw [if_neg hgo] at h
          have h2 := h.2
          cases pre' <;> cases h2

/-- C2 at the failing input: `SQLExecDirect` returns `SQL_ERROR`, after which
the driver has no result set and `SQLMoreResults` fails. `EIO_Query` stores
the code in `req->result`; `EIO_AfterQuery` still asks for the column count
and emits one message, whose error is null. -/
theorem C2_failed_execute :
    (EIO_Query true SQL_ERROR eio_custom).1.result = SQL_ERROR ∧
    Query true SQL_ERROR 1 [⟨[], [], SQL_ERROR⟩] =
      [Event.SQLFreeStmt, Event.SQLAllocStmt, Event.SQLExecDirect, Event.SQLError,
       Event.SQLNumResultCols, Event.SQLMoreResults SQL_ERROR, Event.SQLFreeStmt,
       Event.SQLAllocHandleStmt, Event.Emit ⟨none, [], false⟩] := by
  decide

/-! ## A failed open (C6) -/

theorem printError_no_free (diagRecs : List Int) : ∀ e ∈ printError diagRecs, e.isFree = false := by
  induction diagRecs with
  | nil => simp [printError, Event.isFree]
  | cons ret rest ih =>
    unfold printError
    split
    · intro e he
      rcases List.mem_cons.1 he with h | h
      · rw [h]; rfl
      · exact ih e h
    · simp [Event.isFree]

/-- C6, as stated, fails: when `SQLAllocEnv` succeeds and `SQLAllocConnect`
fails, or both succeed and `SQLDriverConnect` fails, `EIO_Open` returns with
the environment handle (and, in the second case, the connection handle)
still allocated, having issued no call that frees a handle. -/
theorem C6_counterexample :
    (EIO_Open Database.fresh
      ⟨SQL_SUCCESS, SQL_ERROR, SQL_SUCCESS, SQL_SUCCESS, SQL_SUCCESS, 1, []⟩ eio_custom) =
      (⟨true, false, false, false, 0⟩, ⟨SQL_ERROR⟩, [Event.SQLAllocEnv, Event.SQLAllocConnect]) ∧
    ¬ (EIO_Open Database.fresh
      ⟨SQL_SUCCESS, SQL_ERROR, SQL_SUCCESS, SQL_SUCCESS, SQL_SUCCESS, 1, []⟩ eio_custom).1.Closed ∧
    (EIO_Open Database.fresh
      ⟨SQL_SUCCESS, SQL_SUCCESS, SQL_ERROR, SQL_SUCCESS, SQL_SUCCESS, 1, [SQL_NO_DATA]⟩
      eio_custom) =
      (⟨true, true, false, false, 0⟩, ⟨SQL_ERROR⟩,
        [Event.SQLAllocEnv, Event.SQLAllocConnect, Event.SQLSetConnectOption,
          Event.SQLDriverConnect, Event.SQLGetDiagRec]) ∧
    ¬ (EIO_Open Database.fresh
      ⟨SQL_SUCCESS, SQL_SUCCESS, SQL_ERROR, SQL_SUCCESS, SQL_SUCCESS, 1, [SQL_NO_DATA]⟩
      eio_custom).1.Closed := by
  decide

/-- C6, amended: for every run of `EIO_Open` in which `SQLAllocEnv` succeeds
and a later step fails (`SQLAllocConnect` does not return `SQL_SUCCESS`, or
`SQLDriverConnect` returns neither `SQL_SUCCESS` nor
`SQL_SUCCESS_WITH_INFO`), `EIO_Open` issues no call that frees a handle: the
environment handle allocated by the run is still allocated when `EIO_Open`
returns, so the connection is not in the Closed state; `req->result` holds
the failing code, which is not zero, and `EIO_AfterOpen` passes the error
`Error opening database` to the callback. -/
theorem C6_failed_open_keeps_env (self : Database) (d : OpenScript) (req : eio_req)
    (henv : d.allocEnv = SQL_SUCCESS)
    (hfail : d.allocConnect ≠ SQL_SUCCESS ∨
      (d.driverConnect ≠ SQL_SUCCESS ∧ d.driverConnect ≠ SQL_SUCCESS_WITH_INFO)) :
    (∀ e ∈ (EIO_Open self d req).2.2, e.isFree = false) ∧
    (EIO_Open self d req).1.m_hEnv = true ∧
    ¬ (EIO_Open self d req).1.Closed ∧
    (EIO_Open self d req).2.1.result ≠ 0 ∧
    EIO_AfterOpen (EIO_Open self d req).2.1 = some "Error opening database" := by
  have hsucc : SQL_SUCCEEDED d.allocEnv = true := by rw [henv]; decide
  have key : (∀ e ∈ (EIO_Open self d req).2.2, e.isFree = false) ∧
      (EIO_Open self d req).1.m_hEnv = true ∧ (EIO_Open self d req).2.1.result ≠ 0 := by
    unfold EIO_Open
    rw [if_pos henv]
    by_cases hc : d.allocConnect = SQL_SUCCESS
    · have hd : ¬ (d.driverConnect = SQL_SUCCESS ∨ d.driverConnect = SQL_SUCCESS_WITH_INFO) := by
        rcases hfail with h | h
        · exact absurd hc h
        · rintro (h1 | h1)
          · exact h.1 h1
          · exact h.2 h1
      rw [if_pos hc, if_neg hd]
      refine ⟨?_, by simp [hsucc], ?_⟩
      · intro e he
        rcases List.mem_append.1 he with h | h
        · simp only [List.mem_cons, List.mem_singleton, List.not_mem_nil, or_false] at h
          rcases h with h | h | h | h <;> rw [h] <;> rfl
        · exact printError_no_free _ e h
      · intro h0
        exact hd (Or.inl h0)
    · rw [if_neg hc]
      refine ⟨?_, by simp [hsucc], ?_⟩
      · intro e he
        simp only [List.mem_cons, List.mem_singleton, List.not_mem_nil, or_false] at he
        rcases he with h | h <;> rw [h] <;> rfl
      · intro h0
        exact hc h0
  refine ⟨key.1, key.2.1, ?_, key.2.2, ?_⟩
  · intro hcl
    have := hcl.1
    rw [key.2.1] at this
    cases this
  · unfold EIO_AfterOpen
    rw [if_pos key.2.2]

theorem C6_failed_open_keeps_env_witness :
    (EIO_Open Database.fresh
      ⟨SQL_SUCCESS, SQL_SUCCESS, SQL_ERROR, SQL_SUCCESS, SQL_SUCCESS, 1, [SQL_NO_DATA]⟩
      eio_custom).1.m_hEnv = true :=
  (C6_failed_open_keeps_env Database.fresh
    ⟨SQL_SUCCESS, SQL_SUCCESS, SQL_ERROR, SQL_SUCCESS, SQL_SUCCESS, 1, [SQL_NO_DATA]⟩
    eio_custom (by decide) (Or.inr (by decide))).2.1

/-! ## Close (C7) -/

/-- For every state and all return codes of the three native calls,
`EIO_Close` makes the three calls, leaves `req` as it got it, and the
callback of `close` is called with no error. -/
theorem Close_never_reports (self : Database) (d : CloseScript) (req : eio_req) :
    (EIO_Close self d req).2.1 = req ∧
    (Close self d).2.1 =
      [Event.SQLDisconnect, Event.SQLFreeHandleEnv, Event.SQLFreeHandleDbc] ∧
    (Close self d).2.2 = none :=
  ⟨rfl, rfl, rfl⟩

/-- C7 at the failing input: an open connection whose disconnect fails with
`SQL_ERROR`, as do the two frees. The three native calls are made, and the
callback of `close` is called with no error. -/
theorem C7_failed_disconnect :
    Close ⟨true, true, true, true, 1⟩ ⟨SQL_ERROR, SQL_ERROR, SQL_ERROR⟩ =
      (⟨true, true, true, true, 1⟩,
       [Event.SQLDisconnect, Event.SQLFreeHandleEnv, Event.SQLFreeHandleDbc], none) := by
  decide

/-! ## `atof` on sample texts -/

theorem atof_samples :
    atof "abc".toList = CDouble.zero ∧
    atof "".toList = CDouble.zero ∧
    atof ".".toList = CDouble.zero ∧
    atof "123.45".toList = .fin false 12345 10 (-2) ∧
    atof " -1e3x".toList = .fin true 1 10 3 ∧
    atof "0x1.8p1".toList = .fin false 24 2 (-3) ∧
    atof "NaN".toList = .nan := by
  decide

end NodeOdbc
